import Mathlib

/-!
Shallow embedding of `noel.py` (fa-bien/partylights) and verification of its
specification claims.

Conventions of the embedding:
* Python floats are modelled as real numbers `ℝ`.
* Python `x % y` (positive real modulus) is `pymod x y = x - y * ⌊x / y⌋`.
* Python `int(x)` (truncation toward zero) is `pyint`.
* Python `math.asin`, which raises `ValueError` outside `[-1, 1]`, is the
  `Option`-valued `pyasin`.
* Code paths that raise a Python exception (`ValueError`, `IndexError`,
  `ZeroDivisionError`, reading an unassigned local) are modelled by `none`.
* In-place mutation of the colour list is modelled by state passing: every
  `step` returns the updated effect state together with the updated list.
* Calls to `random.random()` are modelled by reading successive values from an
  ambient stream `rng : ℕ → ℝ` at an explicitly threaded position.
-/

/-- Python `%` on reals, for a (positive) real modulus: `x - y * ⌊x / y⌋`. -/
noncomputable def pymod (x y : ℝ) : ℝ := x - y * ⌊x / y⌋

/-- Python `int(·)` on a real value: truncation toward zero. -/
noncomputable def pyint (x : ℝ) : ℤ := if 0 ≤ x then ⌊x⌋ else -⌊-x⌋

/-- Python `math.asin`: defined on `[-1, 1]`, raises `ValueError` outside. -/
noncomputable def pyasin (x : ℝ) : Option ℝ :=
  if -1 ≤ x ∧ x ≤ 1 then some (Real.arcsin x) else none

/-- `Colour` from `noel.py`: RGBA components (Python integers). -/
structure Colour where
  red : ℤ
  green : ℤ
  blue : ℤ
  alpha : ℤ := 255
deriving DecidableEq

/-- `HSVColour` from `noel.py`: the live, mutable animation state of one
device, three float fields. -/
structure HSVColour where
  H : ℝ
  S : ℝ
  V : ℝ

/-- Default `HSVColour` used as the `List.getD` fallback (never read on
in-range indices). -/
def dfltC : HSVColour := ⟨0, 0, 0⟩

/-- `HSVColour.getRGBAColour` from `noel.py`.  The final `else` branch of the
source prints a diagnostic and then reads the never-assigned locals `R, G, B`,
raising `UnboundLocalError`; it is modelled by `none`. -/
noncomputable def HSVColour.getRGBAColour (c : HSVColour) : Option Colour :=
  let C := c.V * c.S
  let Hprime := c.H * 6
  let X := C * (1 - |pymod Hprime 2 - 1|)
  let m := c.V - C
  let out := fun (R G B : ℝ) =>
    some { red := pyint (255 * (R + m)), green := pyint (255 * (G + m)),
           blue := pyint (255 * (B + m)), alpha := 255 }
  if Hprime < 1 then out C X 0
  else if Hprime < 2 then out X C 0
  else if Hprime < 3 then out 0 C X
  else if Hprime < 4 then out 0 X C
  else if Hprime < 5 then out X 0 C
  else if Hprime < 6 then out C 0 X
  else none

/-- `generateSpreadColours` from `noel.py`: `k` colours starting from the
bright-blue anchor `H = 0.6`, `S = 0.99`, `V = 0.7`, consecutive hues at the
given distance (sentinel `-1` selects the silver-ratio step). -/
noncomputable def generateSpreadColours (k : ℕ) (distance : ℝ := -1) :
    List HSVColour :=
  (List.range k).map fun x : ℕ =>
    ⟨pymod (0.6 + (if distance = -1 then 2 / (1 + Real.sqrt 5) else distance)
        * x) 1, 0.99, 0.7⟩

/-! ### Basic facts about the Python primitives -/

theorem pymod_one (x : ℝ) : pymod x 1 = Int.fract x := by
  unfold pymod Int.fract
  rw [div_one, one_mul]

theorem pymod_one_nonneg (x : ℝ) : 0 ≤ pymod x 1 := by
  rw [pymod_one]; exact Int.fract_nonneg x

theorem pymod_one_lt_one (x : ℝ) : pymod x 1 < 1 := by
  rw [pymod_one]; exact Int.fract_lt_one x

theorem pymod_one_pymod_one (x : ℝ) : pymod (pymod x 1) 1 = pymod x 1 := by
  rw [pymod_one, pymod_one, Int.fract_fract]

theorem pymod_one_eq_self {x : ℝ} (h0 : 0 ≤ x) (h1 : x < 1) : pymod x 1 = x := by
  rw [pymod_one]; exact Int.fract_eq_self.2 ⟨h0, h1⟩

theorem pyint_of_nonneg {x : ℝ} (h : 0 ≤ x) : pyint x = ⌊x⌋ := by
  simp [pyint, h]

theorem pyasin_of_mem {x : ℝ} (h1 : -1 ≤ x) (h2 : x ≤ 1) :
    pyasin x = some (Real.arcsin x) := by
  simp [pyasin, h1, h2]

/-- `Option`-valued map over a list, short-circuiting on the first failure:
the model of a Python loop or comprehension whose body may raise. -/
def mapO (f : α → Option β) : List α → Option (List β)
  | [] => some []
  | a :: l => (f a).bind fun b => (mapO f l).map fun bs => b :: bs

theorem mapO_eq_some_of_forall {f : α → Option β} {g : α → β} :
    ∀ {l : List α}, (∀ a ∈ l, f a = some (g a)) → mapO f l = some (l.map g)
  | [], _ => rfl
  | a :: l, h => by
    have ha := h a (by simp)
    have hl := @mapO_eq_some_of_forall _ _ f g l fun x hx => h x (by simp [hx])
    simp [mapO, ha, hl]

/-! ### Claim C2: the hue-spread generator -/

/-- C2: `generateSpreadColours k distance` returns exactly `k` colours with
`S = 0.99`, `V = 0.7` and `i`-th hue `(0.6 + distance * i) % 1`; for `k = 5`,
`distance = 0.2` the hues are `[0.6, 0.8, 0, 0.2, 0.4]`; for the sentinel
`distance = -1` the step used is `2 / (1 + √5)`. -/
theorem claim_C2 :
    (∀ (k : ℕ) (d : ℝ), d ≠ -1 →
      generateSpreadColours k d =
        (List.range k).map fun x : ℕ => ⟨pymod (0.6 + d * x) 1, 0.99, 0.7⟩) ∧
    (generateSpreadColours 5 0.2).map (fun c => c.H) = [0.6, 0.8, 0, 0.2, 0.4] ∧
    (∀ k : ℕ, generateSpreadColours k (-1) =
      (List.range k).map fun x : ℕ =>
        ⟨pymod (0.6 + (2 / (1 + Real.sqrt 5)) * x) 1, 0.99, 0.7⟩) := by
  refine ⟨fun k d hd => by unfold generateSpreadColours; simp only [if_neg hd],
    ?_, fun k => by unfold generateSpreadColours; norm_num⟩
  have h2 : (0.2 : ℝ) ≠ -1 := by norm_num
  unfold generateSpreadColours
  simp only [if_neg h2, show List.range 5 = [0, 1, 2, 3, 4] from rfl,
    List.map_cons, List.map_nil]
  have e0 : pymod (0.6 + 0.2 * ((0 : ℕ) : ℝ)) 1 = 0.6 := by
    rw [pymod_one]; norm_num [Int.fract]
  have e1 : pymod (0.6 + 0.2 * ((1 : ℕ) : ℝ)) 1 = 0.8 := by
    rw [pymod_one]; norm_num [Int.fract]
  have e2 : pymod (0.6 + 0.2 * ((2 : ℕ) : ℝ)) 1 = 0 := by
    rw [pymod_one]; norm_num [Int.fract]
  have e3 : pymod (0.6 + 0.2 * ((3 : ℕ) : ℝ)) 1 = 0.2 := by
    rw [pymod_one]; norm_num [Int.fract]
  have e4 : pymod (0.6 + 0.2 * ((4 : ℕ) : ℝ)) 1 = 0.4 := by
    rw [pymod_one]; norm_num [Int.fract]
  simp only [e0, e1, e2, e3, e4]

/-- C2 witness: the generator evaluated at `k = 2`, `distance = 0.3`. -/
theorem claim_C2_witness :
    generateSpreadColours 2 0.3 =
      (List.range 2).map fun x => ⟨pymod (0.6 + 0.3 * x) 1, 0.99, 0.7⟩ :=
  claim_C2.1 2 0.3 (by norm_num)

/-! ### Claim C5: conversion of desaturated colours -/

/-- C5 counterexample: at `H = 1` (and any `H ≥ 1`) the conversion reaches the
invalid-input branch and produces no colour at all, so the claimed equality
does not hold for every `H`. -/
theorem claim_C5_counterexample :
    HSVColour.getRGBAColour ⟨1, 0, 1/2⟩ = none ∧ ¬ ((1 : ℝ) < 1) := by
  refine ⟨?_, by norm_num⟩
  unfold HSVColour.getRGBAColour
  norm_num

/-- C5 (amended): for every `V ∈ [0, 1]` and every `H < 1` (so that the sector
selection does not fall off the end), converting `HSVColour ⟨H, 0, V⟩` yields
`R = G = B = ⌊255 * V⌋` (the round-down of the source's `int(...)`),
independent of `H`. -/
theorem claim_C5 (H V : ℝ) (hH : H < 1) (h0 : 0 ≤ V) (h1 : V ≤ 1) :
    HSVColour.getRGBAColour ⟨H, 0, V⟩ =
      some { red := ⌊255 * V⌋, green := ⌊255 * V⌋, blue := ⌊255 * V⌋,
             alpha := 255 } := by
  have hint : pyint (255 * (0 + V)) = ⌊255 * V⌋ := by
    rw [zero_add, pyint_of_nonneg (by positivity)]
  have h6 : H * 6 < 6 := by linarith
  unfold HSVColour.getRGBAColour
  simp only [mul_zero, zero_mul, sub_zero, zero_add, add_zero]
  split_ifs with g1 g2 g3 g4 g5 g6 <;>
    simp_all [hint, mul_zero, zero_mul]

/-- C5 witness: the amended claim evaluated at `H = 0.5`, `V = 0.5`. -/
theorem claim_C5_witness :
    HSVColour.getRGBAColour ⟨0.5, 0, 0.5⟩ =
      some { red := 127, green := 127, blue := 127, alpha := 255 } := by
  have h := claim_C5 0.5 0.5 (by norm_num) (by norm_num) (by norm_num)
  rw [h]
  norm_num

/-! ### Claim C6: behaviour on hues outside the documented domain -/

/-- C6 counterexample: at `H = -1/2`, which lies outside `[0, 1)`, the
conversion does not fail at all: it silently continues through the first
sector and produces the channel values `(255, 255, 0)`. -/
theorem claim_C6_counterexample :
    HSVColour.getRGBAColour ⟨-1/2, 1, 1⟩ =
      some { red := 255, green := 255, blue := 0, alpha := 255 } ∧
    (-1/2 : ℝ) < 0 := by
  refine ⟨?_, by norm_num⟩
  unfold HSVColour.getRGBAColour
  have hm : pymod (-1/2 * 6) 2 = 1 := by
    unfold pymod
    norm_num
  rw [if_pos (by norm_num)]
  rw [hm]
  norm_num [pyint]

/-- C6 (amended): for every colour with `H ≥ 1` (so `H * 6 ≥ 6`) the
conversion reaches the invalid-input branch and produces no colour, but for
every colour with `H < 0` — which is also outside `[0, 1)` — it silently
continues through the first sector and produces channel values. -/
theorem claim_C6 :
    (∀ c : HSVColour, 1 ≤ c.H → HSVColour.getRGBAColour c = none) ∧
    (∀ c : HSVColour, c.H < 0 →
      (HSVColour.getRGBAColour c).isSome = true) := by
  constructor
  · intro c hc
    have h6 : 6 ≤ c.H * 6 := by linarith
    simp only [HSVColour.getRGBAColour]
    split_ifs with g1 g2 g3 g4 g5 g6 <;> first | rfl | linarith
  · intro c hc
    have h6 : c.H * 6 < 1 := by nlinarith
    simp only [HSVColour.getRGBAColour]
    rw [if_pos h6]
    rfl

/-- C6 witness: the amended claim at `H = 2` (no colour) and at `H = -1/2`
(silently produced colour). -/
theorem claim_C6_witness :
    HSVColour.getRGBAColour ⟨2, 1, 1⟩ = none ∧
    (HSVColour.getRGBAColour ⟨-1/2, 1, 1⟩).isSome = true :=
  ⟨claim_C6.1 ⟨2, 1, 1⟩ (by norm_num), claim_C6.2 ⟨-1/2, 1, 1⟩ (by norm_num)⟩

/-! ### HSVCycleEffect -/

/-- Internal state of `HSVCycleEffect` (`noel.py` lines 101-118).  `Sinit` and
`Vinit` hold the arcsin phase offsets recorded on the first step; they are
empty before the first step (the Python attributes do not exist yet and are
never read while `nsteps = 0`). -/
structure HSVCycleState where
  dH : ℝ
  dS : ℝ
  dV : ℝ
  nsteps : ℕ
  minS : ℝ
  maxS : ℝ
  Srange : ℝ
  minV : ℝ
  maxV : ℝ
  Vrange : ℝ
  Sinit : List ℝ
  Vinit : List ℝ

/-- `HSVCycleEffect.__init__` with the source's default arguments. -/
def hsvCycleInit (H : ℝ := 0.05) (S : ℝ := 0) (V : ℝ := 0)
    (minS : ℝ := 1/255) (maxS : ℝ := 1) (minV : ℝ := 1/255) (maxV : ℝ := 1) :
    HSVCycleState :=
  { dH := H, dS := S, dV := V, nsteps := 0,
    minS := minS, maxS := maxS, Srange := maxS - minS,
    minV := minV, maxV := maxV, Vrange := maxV - minV,
    Sinit := [], Vinit := [] }

/-- Model of `for c, a, b in zip(colours, as, bs): c = f c a b`: the update
stops at the shortest list and the remaining colours are left unchanged. -/
def zipApply3 (f : HSVColour → ℝ → ℝ → HSVColour) :
    List HSVColour → List ℝ → List ℝ → List HSVColour
  | c :: cs, a :: as1, b :: bs => f c a b :: zipApply3 f cs as1 bs
  | cs, _, _ => cs

/-- `HSVCycleEffect.step` from `noel.py`: on the first call record the arcsin
phase offsets of every colour's `S` and `V`, then advance the counter and set
`H := (H + dH) % 1` and `S`, `V` to the clamped sinusoids, truncating at the
shortest of the zipped lists. -/
noncomputable def HSVCycleEffect.step (s : HSVCycleState)
    (colours : List HSVColour) : Option (HSVCycleState × List HSVColour) :=
  (if s.nsteps = 0 then
      (mapO (fun c => pyasin c.S) colours).bind fun si =>
        (mapO (fun c => pyasin c.V) colours).map fun vi => (si, vi)
    else some (s.Sinit, s.Vinit)).map fun p =>
    ({ s with nsteps := s.nsteps + 1, Sinit := p.1, Vinit := p.2 },
     zipApply3 (fun c a b =>
       { H := pymod (c.H + s.dH) 1,
         S := s.minS + s.Srange * (1 + Real.sin (a + s.dS * (s.nsteps + 1 : ℕ))) / 2,
         V := s.minV + s.Vrange * (1 + Real.sin (b + s.dV * (s.nsteps + 1 : ℕ))) / 2 })
       colours p.1 p.2)

/-- Some number of consecutive `HSVCycleEffect.step` calls starting from a
given state and colour list. -/
noncomputable def hsvCycleRun (s : HSVCycleState) (cs : List HSVColour) :
    ℕ → Option (HSVCycleState × List HSVColour)
  | 0 => some (s, cs)
  | n + 1 => (hsvCycleRun s cs n).bind fun p => HSVCycleEffect.step p.1 p.2

theorem zipApply3_map (f : HSVColour → ℝ → ℝ → HSVColour)
    (g1 g2 : HSVColour → ℝ) :
    ∀ cs : List HSVColour,
      zipApply3 f cs (cs.map g1) (cs.map g2) = cs.map fun c => f c (g1 c) (g2 c)
  | [] => rfl
  | c :: cs => by
    simp only [List.map_cons, zipApply3]
    rw [zipApply3_map f g1 g2 cs]

theorem zipApply3_map2 (f : HSVColour → ℝ → ℝ → HSVColour)
    (u : HSVColour → HSVColour) (g1 g2 : HSVColour → ℝ) :
    ∀ cs : List HSVColour,
      zipApply3 f (cs.map u) (cs.map g1) (cs.map g2) =
        cs.map fun c => f (u c) (g1 c) (g2 c)
  | [] => rfl
  | c :: cs => by
    simp only [List.map_cons, zipApply3]
    rw [zipApply3_map2 f u g1 g2 cs]

/-! ### Claim C1: HSVCycleEffect with zero deltas -/

/-- Value each colour is frozen at by `HSVCycleEffect` with `dS = dV = 0` and
default bounds: hue reduced mod 1, `S` and `V` pinned to the constant
sinusoid value anchored at the arcsin of the starting `S`, `V`. -/
noncomputable def hsvFrozen (c : HSVColour) : HSVColour :=
  ⟨pymod c.H 1,
   1/255 + (1 - 1/255) * (1 + Real.sin (Real.arcsin c.S)) / 2,
   1/255 + (1 - 1/255) * (1 + Real.sin (Real.arcsin c.V)) / 2⟩

/-- State reached by `HSVCycleEffect(0, 0, 0)` (default bounds) after `m`
steps on an initial colour list `cs`. -/
noncomputable def hsvFrozenState (m : ℕ) (cs : List HSVColour) : HSVCycleState :=
  { dH := 0, dS := 0, dV := 0, nsteps := m,
    minS := 1/255, maxS := 1, Srange := 1 - 1/255,
    minV := 1/255, maxV := 1, Vrange := 1 - 1/255,
    Sinit := cs.map fun c => Real.arcsin c.S,
    Vinit := cs.map fun c => Real.arcsin c.V }

theorem hsvStep_first (cs : List HSVColour)
    (hs : ∀ c ∈ cs, -1 ≤ c.S ∧ c.S ≤ 1) (hv : ∀ c ∈ cs, -1 ≤ c.V ∧ c.V ≤ 1) :
    HSVCycleEffect.step (hsvCycleInit 0 0 0 (1/255) 1 (1/255) 1) cs =
      some (hsvFrozenState 1 cs, cs.map hsvFrozen) := by
  have hmS : mapO (fun c => pyasin c.S) cs =
      some (cs.map fun c => Real.arcsin c.S) :=
    mapO_eq_some_of_forall fun c hc => pyasin_of_mem (hs c hc).1 (hs c hc).2
  have hmV : mapO (fun c => pyasin c.V) cs =
      some (cs.map fun c => Real.arcsin c.V) :=
    mapO_eq_some_of_forall fun c hc => pyasin_of_mem (hv c hc).1 (hv c hc).2
  unfold HSVCycleEffect.step hsvCycleInit
  rw [if_pos rfl, hmS, hmV, Option.some_bind, Option.map_some', Option.map_some']
  unfold hsvFrozenState
  refine congrArg some (Prod.ext rfl ?_)
  dsimp only
  rw [zipApply3_map]
  refine List.map_congr_left fun c _ => ?_
  unfold hsvFrozen
  simp only [zero_mul, add_zero, zero_add, HSVColour.mk.injEq]

theorem hsvStep_later (m : ℕ) (hm : m ≠ 0) (cs : List HSVColour) :
    HSVCycleEffect.step (hsvFrozenState m cs) (cs.map hsvFrozen) =
      some (hsvFrozenState (m + 1) cs, cs.map hsvFrozen) := by
  unfold HSVCycleEffect.step hsvFrozenState
  rw [if_neg hm, Option.map_some']
  refine congrArg some (Prod.ext rfl ?_)
  dsimp only
  rw [zipApply3_map2]
  refine List.map_congr_left fun c _ => ?_
  unfold hsvFrozen
  simp only [zero_mul, add_zero, zero_add, HSVColour.mk.injEq,
    pymod_one_pymod_one]

/-- Every run of `n ≥ 1` steps of `HSVCycleEffect(0, 0, 0)` (default bounds)
produces the same state and colour list: hue reduced mod 1 once, `S` and `V`
frozen at the value the first step produced. -/
theorem hsvCycleRun_freeze (cs : List HSVColour)
    (hs : ∀ c ∈ cs, -1 ≤ c.S ∧ c.S ≤ 1) (hv : ∀ c ∈ cs, -1 ≤ c.V ∧ c.V ≤ 1) :
    ∀ n : ℕ, 1 ≤ n →
      hsvCycleRun (hsvCycleInit 0 0 0 (1/255) 1 (1/255) 1) cs n =
        some (hsvFrozenState n cs, cs.map hsvFrozen) := by
  intro n hn
  induction n with
  | zero => exact absurd hn (by norm_num)
  | succ m ih =>
    by_cases hm : m = 0
    · subst hm
      rw [show hsvCycleRun (hsvCycleInit 0 0 0 (1/255) 1 (1/255) 1) cs 1 =
          HSVCycleEffect.step (hsvCycleInit 0 0 0 (1/255) 1 (1/255) 1) cs
        from rfl]
      exact hsvStep_first cs hs hv
    · have hm1 : 1 ≤ m := Nat.one_le_iff_ne_zero.2 hm
      rw [hsvCycleRun, ih hm1, Option.some_bind]
      exact hsvStep_later m hm cs

/-- C1 counterexample: one step of `HSVCycleEffect(0, 0, 0)` (defaults
otherwise) on the colour `(H, S, V) = (0, 0, 0)` moves `S` (and `V`) from `0`
to `128/255`: the effect does not return `S`, `V` to their starting values. -/
theorem claim_C1_counterexample :
    hsvCycleRun (hsvCycleInit 0 0 0 (1/255) 1 (1/255) 1) [⟨0, 0, 0⟩] 1 =
      some (hsvFrozenState 1 [⟨0, 0, 0⟩], [⟨0, 128/255, 128/255⟩]) ∧
    (128/255 : ℝ) ≠ 0 := by
  refine ⟨?_, by norm_num⟩
  rw [hsvCycleRun_freeze [⟨0, 0, 0⟩]
    (fun c hc => by simp at hc; subst hc; exact ⟨by norm_num, by norm_num⟩)
    (fun c hc => by simp at hc; subst hc; exact ⟨by norm_num, by norm_num⟩)
    1 (by norm_num)]
  refine congrArg some (Prod.ext rfl ?_)
  simp only [List.map_cons, List.map_nil]
  unfold hsvFrozen
  simp only [Real.arcsin_zero, Real.sin_zero, HSVColour.mk.injEq]
  norm_num [pymod_one, Int.fract]

/-- C1 (amended): `HSVCycleEffect` with `dH = dS = dV = 0` and default bounds
is the identity on each colour's `H` when `H ∈ [0, 1)` and `S, V ∈ [-1, 1]`,
but is not a no-op on `S` and `V`: the first step moves each colour's `S` to
`1/255 + (1 - 1/255)(1 + S)/2` (and `V` likewise) and every step thereafter
returns exactly those same frozen values — the sinusoid is constant, but it
does not pass through the starting `S`, `V` in general. -/
theorem claim_C1 (cs : List HSVColour)
    (hh : ∀ c ∈ cs, 0 ≤ c.H ∧ c.H < 1)
    (hs : ∀ c ∈ cs, -1 ≤ c.S ∧ c.S ≤ 1) (hv : ∀ c ∈ cs, -1 ≤ c.V ∧ c.V ≤ 1)
    (n : ℕ) (hn : 1 ≤ n) :
    hsvCycleRun (hsvCycleInit 0 0 0 (1/255) 1 (1/255) 1) cs n =
      some (hsvFrozenState n cs,
            cs.map fun c =>
              ⟨c.H, 1/255 + (1 - 1/255) * (1 + c.S) / 2,
               1/255 + (1 - 1/255) * (1 + c.V) / 2⟩) := by
  rw [hsvCycleRun_freeze cs hs hv n hn]
  refine congrArg some (Prod.ext rfl ?_)
  refine List.map_congr_left fun c hc => ?_
  unfold hsvFrozen
  rw [pymod_one_eq_self (hh c hc).1 (hh c hc).2,
    Real.sin_arcsin (hs c hc).1 (hs c hc).2,
    Real.sin_arcsin (hv c hc).1 (hv c hc).2]

/-- C1 witness: two steps on the single colour `(0.5, 0.5, 0.5)`; `H` stays
`0.5` and `S`, `V` sit at the frozen value `1/255 + (1 - 1/255)(1.5)/2`. -/
theorem claim_C1_witness :
    hsvCycleRun (hsvCycleInit 0 0 0 (1/255) 1 (1/255) 1) [⟨0.5, 0.5, 0.5⟩] 2 =
      some (hsvFrozenState 2 [⟨0.5, 0.5, 0.5⟩],
            [⟨0.5, 1/255 + (1 - 1/255) * (1 + 0.5) / 2,
              1/255 + (1 - 1/255) * (1 + 0.5) / 2⟩]) := by
  have h := claim_C1 [⟨0.5, 0.5, 0.5⟩]
    (fun c hc => by simp at hc; subst hc; exact ⟨by norm_num, by norm_num⟩)
    (fun c hc => by simp at hc; subst hc; exact ⟨by norm_num, by norm_num⟩)
    (fun c hc => by simp at hc; subst hc; exact ⟨by norm_num, by norm_num⟩)
    2 (by norm_num)
  rw [h]
  simp only [List.map_cons, List.map_nil]

/-! ### ChristmasEffect -/

/-- Internal state of `ChristmasEffect` (`noel.py` lines 137-166).  `current`
and `Vinit` do not exist before the first step and are never read while
`nsteps = 0`; they are carried as empty lists.  `steps` is the attribute that
`reset` assigns (the source writes `self.steps`, not `self.nsteps`); it is
`none` until `reset` is called and is never read anywhere. -/
structure ChristmasState where
  dV : ℝ
  minV : ℝ
  maxV : ℝ
  Vrange : ℝ
  hues : List ℝ
  nsteps : ℕ
  switched : Bool
  current : List ℕ
  Vinit : List ℝ
  steps : Option ℕ

/-- `ChristmasEffect.__init__` with the source's default arguments. -/
def christmasInit (V : ℝ := 0.1) (minV : ℝ := 1/255) (maxV : ℝ := 0.7)
    (hues : List ℝ := [0, 51/360, 0.33]) : ChristmasState :=
  { dV := V, minV := minV, maxV := maxV, Vrange := maxV - minV, hues := hues,
    nsteps := 0, switched := false, current := [], Vinit := [], steps := none }

/-- Model of `for i, c in enumerate(colours): c.H = hues[current[i] % len(hues)]`.
With no colours the loop body never runs; with colours but an empty hue list
the `% 0` raises `ZeroDivisionError`; with `current` shorter than the colour
list the indexing raises `IndexError`; both are modelled by `none`. -/
def resolveHues (hues : List ℝ) (current : List ℕ) (colours : List HSVColour) :
    Option (List HSVColour) :=
  if colours.length = 0 then some colours
  else if hues.length = 0 then none
  else if colours.length ≤ current.length then
    some ((List.range colours.length).map fun i =>
      { colours.getD i dfltC with
          H := hues.getD (current.getD i 0 % hues.length) 0 })
  else none

/-- The sinusoidal `newV` computed by the Christmas effects at counter value
`n` from a recorded phase `v`. -/
noncomputable def christmasNewV (dV minV Vrange : ℝ) (n : ℝ) (v : ℝ) : ℝ :=
  minV + Vrange * (1 + Real.sin (v + dV * n)) / 2

/-- One iteration of the `for c, V in zip(colours, self.Vinit)` loop of
`ChristmasEffect.step`, at position `j`, acting on the accumulated
`(colours, current, switched)`.  In the fire branch the source's inner
`for i, c in enumerate(colours)` rebinds the loop variable `c`, so the final
`c.V = newV` of that iteration writes the V of the LAST colour, not of the
colour at position `j` (whose V keeps its stale value). -/
noncomputable def christmasBody (dV minV Vrange : ℝ) (hues : List ℝ) (n : ℝ)
    (Vinit : List ℝ) (acc : List HSVColour × List ℕ × Bool) (j : ℕ) :
    Option (List HSVColour × List ℕ × Bool) :=
  let newV := christmasNewV dV minV Vrange n (Vinit.getD j 0)
  let cj := acc.1.getD j dfltC
  if newV > cj.V ∧ acc.2.2 = false then
    (resolveHues hues (acc.2.1.map (· + 1)) acc.1).map fun cs2 =>
      (cs2.set (cs2.length - 1)
         { cs2.getD (cs2.length - 1) dfltC with V := newV },
       acc.2.1.map (· + 1), true)
  else if newV < cj.V ∧ acc.2.2 = true then
    some (acc.1.set j { cj with V := newV }, acc.2.1, false)
  else
    some (acc.1.set j { cj with V := newV }, acc.2.1, acc.2.2)

/-- The whole `zip` loop of `ChristmasEffect.step`, iterated over the list of
positions. -/
noncomputable def christmasLoop (dV minV Vrange : ℝ) (hues : List ℝ) (n : ℝ)
    (Vinit : List ℝ) :
    List ℕ → List HSVColour × List ℕ × Bool →
      Option (List HSVColour × List ℕ × Bool)
  | [], acc => some acc
  | j :: js, acc =>
    (christmasBody dV minV Vrange hues n Vinit acc j).bind
      (christmasLoop dV minV Vrange hues n Vinit js)

/-- `ChristmasEffect.step` from `noel.py`: on the first call set the palette
indices to `0, 1, ...`, record arcsin V-phases, assign hues round-robin; then
advance the counter and run the zip loop over the first
`min (len colours) (len Vinit)` positions. -/
noncomputable def ChristmasEffect.step (s : ChristmasState)
    (colours : List HSVColour) : Option (ChristmasState × List HSVColour) :=
  (if s.nsteps = 0 then
      (mapO (fun c => pyasin c.V) colours).bind fun vi =>
        (resolveHues s.hues (List.range colours.length) colours).map fun cs =>
          (List.range colours.length, vi, cs)
    else some (s.current, s.Vinit, colours)).bind fun init3 =>
    (christmasLoop s.dV s.minV s.Vrange s.hues ((s.nsteps + 1 : ℕ) : ℝ)
        init3.2.1 (List.range (min init3.2.2.length init3.2.1.length))
        (init3.2.2, init3.1, s.switched)).map fun out =>
      ({ s with
          nsteps := s.nsteps + 1
          current := out.2.1
          Vinit := init3.2.1
          switched := out.2.2 }, out.1)

/-- `ChristmasEffect.reset` from `noel.py`: the source assigns
`self.steps = 0` — a fresh, never-read attribute — and touches nothing else;
in particular the counter `nsteps` is NOT cleared. -/
def ChristmasEffect.reset (s : ChristmasState) : ChristmasState :=
  { s with steps := some 0 }

/-! ### List helpers for the Christmas loop analysis -/

theorem getD_set (l : List HSVColour) (j i : ℕ) (a : HSVColour) :
    (l.set j a).getD i dfltC =
      if j = i ∧ j < l.length then a else l.getD i dfltC := by
  rw [List.getD_eq_getElem?_getD, List.getElem?_set]
  by_cases hij : j = i
  · subst hij
    by_cases hj : j < l.length
    · simp [hj]
    · simp [hj, List.getD_eq_getElem?_getD,
        List.getElem?_eq_none (le_of_not_lt hj)]
  · simp [hij, List.getD_eq_getElem?_getD]

theorem getD_set_same_H (l : List HSVColour) (j : ℕ) (v : ℝ) (i : ℕ) :
    ((l.set j { l.getD j dfltC with V := v }).getD i dfltC).H =
      (l.getD i dfltC).H := by
  rw [getD_set]
  by_cases h : j = i ∧ j < l.length
  · rw [if_pos h]
    rcases h with ⟨he, _⟩
    subst he
    rfl
  · rw [if_neg h]

theorem getD_map_add_one (l : List ℕ) (i : ℕ) (hi : i < l.length) :
    (l.map (· + 1)).getD i 0 = l.getD i 0 + 1 := by
  rw [List.getD_eq_getElem?_getD, List.getD_eq_getElem?_getD,
    List.getElem?_map]
  rw [List.getElem?_eq_getElem hi]
  rfl

theorem sum_map_add_one (l : List ℕ) :
    (l.map (· + 1)).sum = l.sum + l.length := by
  simp [List.sum_map_add]

theorem resolveHues_length {hues : List ℝ} {current : List ℕ}
    {cs cs' : List HSVColour} (h : resolveHues hues current cs = some cs') :
    cs'.length = cs.length := by
  unfold resolveHues at h
  split_ifs at h with h0 h1 h2
  · cases h; rfl
  · cases h; simp

theorem resolveHues_some_cases {hues : List ℝ} {current : List ℕ}
    {cs cs' : List HSVColour} (h : resolveHues hues current cs = some cs') :
    cs.length = 0 ∨ (hues.length ≠ 0 ∧ cs.length ≤ current.length) := by
  unfold resolveHues at h
  split_ifs at h with h0 h1 h2
  · exact Or.inl h0
  · exact Or.inr ⟨h1, h2⟩

theorem resolveHues_getD_H {hues : List ℝ} {current : List ℕ}
    {cs cs' : List HSVColour} (h : resolveHues hues current cs = some cs')
    {i : ℕ} (hi : i < cs.length) :
    (cs'.getD i dfltC).H = hues.getD (current.getD i 0 % hues.length) 0 := by
  unfold resolveHues at h
  split_ifs at h with h0 h1 h2
  · omega
  · cases h
    rw [List.getD_eq_getElem?_getD, List.getElem?_map,
      List.getElem?_range (by simpa using hi)]
    rfl

theorem resolveHues_isSome {hues : List ℝ} {current : List ℕ}
    (cs : List HSVColour) (hh : ¬ hues.length = 0)
    (hlen : cs.length ≤ current.length) :
    ∃ cs', resolveHues hues current cs = some cs' ∧ cs'.length = cs.length := by
  unfold resolveHues
  by_cases h0 : cs.length = 0
  · rw [if_pos h0]
    exact ⟨cs, rfl, rfl⟩
  · rw [if_neg h0, if_neg hh, if_pos hlen]
    exact ⟨_, rfl, by simp⟩

/-- Per-iteration dichotomy of the Christmas zip loop: either the iteration
keeps `current` unchanged together with every colour's `H`, or it fires and
strictly increases the sum of the palette indices.  The colour-list length is
preserved either way. -/
theorem christmasBody_cases {dV minV Vrange : ℝ} {hues : List ℝ} {n : ℝ}
    {Vinit : List ℝ} {acc : List HSVColour × List ℕ × Bool} {j : ℕ}
    {out : List HSVColour × List ℕ × Bool}
    (h : christmasBody dV minV Vrange hues n Vinit acc j = some out) :
    (out.2.1 = acc.2.1 ∧ out.1.length = acc.1.length ∧
      ∀ i, (out.1.getD i dfltC).H = (acc.1.getD i dfltC).H) ∨
    (acc.2.1.sum < out.2.1.sum ∧ out.1.length = acc.1.length) := by
  unfold christmasBody at h
  dsimp only at h
  split_ifs at h with hf hr
  · rcases Option.map_eq_some'.1 h with ⟨cs2, hres, hout⟩
    subst hout
    rcases eq_or_ne acc.2.1 [] with hcur | hcur
    · have hlen0 : acc.1.length = 0 := by
        rcases resolveHues_some_cases hres with h0 | ⟨_, hlen⟩
        · exact h0
        · rw [hcur] at hlen
          simpa using hlen
      have hcs2 : cs2 = [] :=
        List.length_eq_zero.1 ((resolveHues_length hres).trans hlen0)
      have hcs : acc.1 = [] := List.length_eq_zero.1 hlen0
      subst hcs2
      left
      refine ⟨by rw [hcur]; rfl, by simp [hcs], fun i => ?_⟩
      rw [hcs]
      rfl
    · right
      refine ⟨?_, by simp [resolveHues_length hres]⟩
      rw [sum_map_add_one]
      have : 0 < acc.2.1.length := List.length_pos.2 hcur
      omega
  · cases h
    exact Or.inl ⟨rfl, by simp, fun i => getD_set_same_H _ _ _ _⟩
  · cases h
    exact Or.inl ⟨rfl, by simp, fun i => getD_set_same_H _ _ _ _⟩

/-- The dichotomy of `christmasBody_cases` lifted to the whole zip loop. -/
theorem christmasLoop_cases {dV minV Vrange : ℝ} {hues : List ℝ} {n : ℝ}
    {Vinit : List ℝ} :
    ∀ (js : List ℕ) (acc out : List HSVColour × List ℕ × Bool),
      christmasLoop dV minV Vrange hues n Vinit js acc = some out →
      (out.2.1 = acc.2.1 ∧ out.1.length = acc.1.length ∧
        ∀ i, (out.1.getD i dfltC).H = (acc.1.getD i dfltC).H) ∨
      (acc.2.1.sum < out.2.1.sum ∧ out.1.length = acc.1.length)
  | [], acc, out, h => by
    cases h
    exact Or.inl ⟨rfl, rfl, fun i => rfl⟩
  | j :: js, acc, out, h => by
    unfold christmasLoop at h
    rcases Option.bind_eq_some.1 h with ⟨mid, hb, hl⟩
    rcases christmasBody_cases hb with ⟨e1, e2, e3⟩ | ⟨e1, e2⟩
    · rcases christmasLoop_cases js mid out hl with ⟨f1, f2, f3⟩ | ⟨f1, f2⟩
      · exact Or.inl ⟨f1.trans e1, f2.trans e2, fun i => (f3 i).trans (e3 i)⟩
      · exact Or.inr ⟨(congrArg List.sum e1.symm).trans_lt f1, f2.trans e2⟩
    · rcases christmasLoop_cases js mid out hl with ⟨f1, f2, f3⟩ | ⟨f1, f2⟩
      · exact Or.inr ⟨e1.trans_eq (congrArg List.sum f1.symm), f2.trans e2⟩
      · exact Or.inr ⟨e1.trans f1, f2.trans e2⟩

/-- At a step whose latch does not fire (witnessed by `current` being left
unchanged), no colour's `H` changes. -/
theorem christmasStep_nofire (s : ChristmasState) (cs : List HSVColour)
    (s' : ChristmasState) (cs' : List HSVColour) (hnz : s.nsteps ≠ 0)
    (h : ChristmasEffect.step s cs = some (s', cs'))
    (hcur : s'.current = s.current) :
    cs'.length = cs.length ∧
      ∀ i, (cs'.getD i dfltC).H = (cs.getD i dfltC).H := by
  unfold ChristmasEffect.step at h
  rw [if_neg hnz, Option.some_bind] at h
  dsimp only at h
  rcases Option.map_eq_some'.1 h with ⟨out, hloop, hout⟩
  cases hout
  rcases christmasLoop_cases _ _ _ hloop with ⟨e1, e2, e3⟩ | ⟨e1, e2⟩
  · exact ⟨e2, e3⟩
  · rw [show out.2.1 = s.current from hcur] at e1
    exact absurd e1 (lt_irrefl _)

/-- Fire event: when the examined colour's freshly computed `V` exceeds its
current `V` while the shared latch is off, the iteration advances every
palette index by exactly one, latches `switched`, and re-resolves every
colour's hue from the palette modulo its length. -/
theorem christmasBody_fire {dV minV Vrange : ℝ} {hues : List ℝ} {n : ℝ}
    {Vinit : List ℝ} {acc : List HSVColour × List ℕ × Bool} {j : ℕ}
    {out : List HSVColour × List ℕ × Bool}
    (hsw : acc.2.2 = false)
    (hfire : (acc.1.getD j dfltC).V <
      christmasNewV dV minV Vrange n (Vinit.getD j 0))
    (h : christmasBody dV minV Vrange hues n Vinit acc j = some out) :
    out.2.1 = acc.2.1.map (· + 1) ∧ out.2.2 = true ∧
    ∀ i, i < acc.1.length →
      (out.1.getD i dfltC).H =
        hues.getD ((acc.2.1.getD i 0 + 1) % hues.length) 0 := by
  unfold christmasBody at h
  dsimp only at h
  rw [if_pos ⟨hfire, hsw⟩] at h
  rcases Option.map_eq_some'.1 h with ⟨cs2, hres, hout⟩
  subst hout
  refine ⟨rfl, rfl, fun i hi => ?_⟩
  dsimp only
  rw [getD_set_same_H]
  rcases resolveHues_some_cases hres with h0 | ⟨hh, hlen⟩
  · omega
  · rw [resolveHues_getD_H hres hi, getD_map_add_one]
    exact lt_of_lt_of_le hi (by simpa using hlen)

/-- Release event: when the examined colour's freshly computed `V` is below
its current `V` while the shared latch is on, the iteration only writes the
new `V` and releases the latch; palette indices and hues are untouched. -/
theorem christmasBody_release {dV minV Vrange : ℝ} {hues : List ℝ} {n : ℝ}
    {Vinit : List ℝ} {acc : List HSVColour × List ℕ × Bool} {j : ℕ}
    {out : List HSVColour × List ℕ × Bool}
    (hsw : acc.2.2 = true)
    (hrel : christmasNewV dV minV Vrange n (Vinit.getD j 0) <
      (acc.1.getD j dfltC).V)
    (h : christmasBody dV minV Vrange hues n Vinit acc j = some out) :
    out.1 = acc.1.set j
        { acc.1.getD j dfltC with
            V := christmasNewV dV minV Vrange n (Vinit.getD j 0) } ∧
    out.2.1 = acc.2.1 ∧ out.2.2 = false := by
  unfold christmasBody at h
  dsimp only at h
  rw [if_neg (fun hc => by rw [hsw] at hc; exact Bool.noConfusion hc.2),
    if_pos ⟨hrel, hsw⟩] at h
  cases h
  exact ⟨rfl, rfl, rfl⟩

/-- The zip-loop body never fails when the hue palette is non-empty and the
palette-index list is at least as long as the colour list; colour-list and
index-list lengths are preserved. -/
theorem christmasBody_isSome {dV minV Vrange : ℝ} {hues : List ℝ} {n : ℝ}
    {Vinit : List ℝ} (acc : List HSVColour × List ℕ × Bool) (j : ℕ)
    (hh : ¬ hues.length = 0) (hlen : acc.1.length ≤ acc.2.1.length) :
    ∃ out, christmasBody dV minV Vrange hues n Vinit acc j = some out ∧
      out.1.length = acc.1.length ∧ out.2.1.length = acc.2.1.length := by
  unfold christmasBody
  dsimp only
  split_ifs with hf hr
  · rcases resolveHues_isSome acc.1 hh
        (by simpa using hlen : acc.1.length ≤ (acc.2.1.map (· + 1)).length)
      with ⟨cs2, hres, hlen2⟩
    rw [hres, Option.map_some']
    exact ⟨_, rfl, by simp [hlen2], by simp⟩
  · exact ⟨_, rfl, by simp, rfl⟩
  · exact ⟨_, rfl, by simp, rfl⟩

/-- The whole zip loop never fails under the same precondition. -/
theorem christmasLoop_isSome {dV minV Vrange : ℝ} {hues : List ℝ} {n : ℝ}
    {Vinit : List ℝ} (hh : ¬ hues.length = 0) :
    ∀ (js : List ℕ) (acc : List HSVColour × List ℕ × Bool),
      acc.1.length ≤ acc.2.1.length →
      ∃ out, christmasLoop dV minV Vrange hues n Vinit js acc = some out ∧
        out.1.length = acc.1.length ∧ out.2.1.length = acc.2.1.length
  | [], acc, _ => ⟨acc, rfl, rfl, rfl⟩
  | j :: js, acc, hlen => by
    rcases christmasBody_isSome acc j hh hlen with ⟨mid, hb, hl1, hl2⟩
    rcases christmasLoop_isSome hh js mid (by omega) with ⟨out, hl, g1, g2⟩
    exact ⟨out, by unfold christmasLoop; rw [hb, Option.some_bind]; exact hl,
      by omega, by omega⟩

/-! ### A concrete fire-and-release cycle of ChristmasEffect -/

theorem pi_lower : (3.141592 : ℝ) < Real.pi := Real.pi_gt_3141592

theorem pi_upper : Real.pi < 3.15 := Real.pi_lt_315

theorem sin_two_pos : (0 : ℝ) < Real.sin 2 := by
  apply Real.sin_pos_of_pos_of_lt_pi (by norm_num)
  linarith [pi_lower]

theorem sin_four_neg : Real.sin 4 < 0 := by
  rw [← Real.sin_sub_two_pi 4]
  apply Real.sin_neg_of_neg_of_neg_pi_lt
  · linarith [pi_lower]
  · linarith [pi_upper]

theorem sin_four_lt_sin_two : Real.sin 4 < Real.sin 2 :=
  sin_four_neg.trans sin_two_pos

/-- Sinusoid value of the demo configuration (`dV = 2`, `minV = 1/255`,
`maxV = 0.7`, arcsin phase `0`) at counter value `n`. -/
noncomputable def demoG (n : ℝ) : ℝ := christmasNewV 2 (1/255) (0.7 - 1/255) n 0

/-- Demo state after the first step: the latch fired, both palette indices
advanced from `[0, 1]` to `[1, 2]`. -/
noncomputable def demoS1 (st : Option ℕ) : ChristmasState :=
  { dV := 2, minV := 1/255, maxV := 0.7, Vrange := 0.7 - 1/255,
    hues := [0, 0.5], nsteps := 1, switched := true, current := [1, 2],
    Vinit := [0, 0], steps := st }

/-- Demo state after the second step: the latch released, palette indices
unchanged. -/
noncomputable def demoS2 (st : Option ℕ) : ChristmasState :=
  { dV := 2, minV := 1/255, maxV := 0.7, Vrange := 0.7 - 1/255,
    hues := [0, 0.5], nsteps := 2, switched := false, current := [1, 2],
    Vinit := [0, 0], steps := st }

theorem demoG_pos (n : ℝ) : (0 : ℝ) < demoG n := by
  unfold demoG christmasNewV
  have hsin : -1 ≤ Real.sin (0 + 2 * n) := Real.neg_one_le_sin _
  have h1 : (0 : ℝ) ≤ (0.7 - 1/255) * (1 + Real.sin (0 + 2 * n)) / 2 := by
    apply div_nonneg _ (by norm_num)
    exact mul_nonneg (by norm_num) (by linarith)
  linarith

theorem demoG_two_lt_one : demoG 2 < demoG 1 := by
  unfold demoG christmasNewV
  have hs : Real.sin (0 + 2 * (2 : ℝ)) < Real.sin (0 + 2 * (1 : ℝ)) := by
    rw [show (0 + 2 * (2 : ℝ)) = 4 by norm_num,
      show (0 + 2 * (1 : ℝ)) = 2 by norm_num]
    exact sin_four_lt_sin_two
  have hmul := mul_lt_mul_of_pos_left hs
    (show (0 : ℝ) < (0.7 - 1/255) / 2 by norm_num)
  nlinarith [hmul]

/-- First demo step: `ChristmasEffect(V=2, maxV=0.7, hues=[0, 0.5])` on two
colours with `V = 0` initializes indices to `[0, 1]` and hues to `[0, 0.5]`,
then immediately fires: indices advance to `[1, 2]`, hues swap to
`[0.5, 0]`, the latch closes.  (Because of the source's loop-variable
aliasing, the fired colour keeps its stale `V = 0` and the last colour
receives the new `V`.) -/
theorem christmasDemo_step1 :
    ChristmasEffect.step (christmasInit 2 (1/255) 0.7 [0, 0.5])
      [⟨0.3, 0.5, 0⟩, ⟨0.7, 0.5, 0⟩] =
    some (demoS1 none, [⟨0.5, 0.5, 0⟩, ⟨0, 0.5, demoG 1⟩]) := by
  have h0 : pyasin (0 : ℝ) = some 0 := by
    rw [pyasin_of_mem (by norm_num) (by norm_num), Real.arcsin_zero]
  have hmap : mapO (fun c => pyasin c.V)
      [(⟨0.3, 0.5, 0⟩ : HSVColour), ⟨0.7, 0.5, 0⟩] = some [0, 0] := by
    simp [mapO, h0]
  have hres : resolveHues [0, 0.5] (List.range 2)
      [(⟨0.3, 0.5, 0⟩ : HSVColour), ⟨0.7, 0.5, 0⟩] =
      some [⟨0, 0.5, 0⟩, ⟨0.5, 0.5, 0⟩] := by
    simp [resolveHues, show List.range 2 = [0, 1] from rfl]
  have hres2 : resolveHues [0, 0.5] [1, 2]
      [(⟨0, 0.5, 0⟩ : HSVColour), ⟨0.5, 0.5, 0⟩] =
      some [⟨0.5, 0.5, 0⟩, ⟨0, 0.5, 0⟩] := by
    simp [resolveHues, show List.range 2 = [0, 1] from rfl]
  have hcast : ((0 + 1 : ℕ) : ℝ) = 1 := by norm_num
  have hb0 : christmasBody 2 (1/255) (0.7 - 1/255) [0, 0.5] 1 [0, 0]
      ([⟨0, 0.5, 0⟩, ⟨0.5, 0.5, 0⟩], [0, 1], false) 0 =
      some ([⟨0.5, 0.5, 0⟩, ⟨0, 0.5, demoG 1⟩], [1, 2], true) := by
    unfold christmasBody
    dsimp only
    rw [if_pos ⟨demoG_pos 1, rfl⟩]
    rw [show ([0, 1].map (· + 1)) = [1, 2] from rfl, hres2, Option.map_some']
    rfl
  have hb1 : christmasBody 2 (1/255) (0.7 - 1/255) [0, 0.5] 1 [0, 0]
      ([⟨0.5, 0.5, 0⟩, ⟨0, 0.5, demoG 1⟩], [1, 2], true) 1 =
      some ([⟨0.5, 0.5, 0⟩, ⟨0, 0.5, demoG 1⟩], [1, 2], true) := by
    unfold christmasBody
    dsimp only
    rw [if_neg (fun hc => Bool.noConfusion hc.2),
      if_neg (fun hc => absurd hc.1 (lt_irrefl _))]
    rfl
  unfold ChristmasEffect.step
  dsimp only [christmasInit]
  rw [if_pos rfl, hmap, Option.some_bind,
    show List.length [(⟨0.3, 0.5, 0⟩ : HSVColour), ⟨0.7, 0.5, 0⟩] = 2
      from rfl, hres, Option.map_some', Option.some_bind]
  dsimp only
  rw [show (min (List.length [(⟨0, 0.5, 0⟩ : HSVColour), ⟨0.5, 0.5, 0⟩])
      (List.length [(0 : ℝ), 0])) = 2 from rfl,
    show List.range 2 = [0, 1] from rfl, hcast]
  simp only [christmasLoop]
  rw [hb0, Option.some_bind, hb1, Option.some_bind]
  simp only [christmasLoop, Option.map_some']
  rfl

/-- Second demo step: no fire (latch is closed); at the second colour the new
`V` falls below the current `V`, so the latch releases.  Palette indices and
hues are unchanged. -/
theorem christmasDemo_step2 (st : Option ℕ) :
    ChristmasEffect.step (demoS1 st)
      [⟨0.5, 0.5, 0⟩, ⟨0, 0.5, demoG 1⟩] =
    some (demoS2 st, [⟨0.5, 0.5, demoG 2⟩, ⟨0, 0.5, demoG 2⟩]) := by
  have hcast : ((1 + 1 : ℕ) : ℝ) = 2 := by norm_num
  have hb0 : christmasBody 2 (1/255) (0.7 - 1/255) [0, 0.5] 2 [0, 0]
      ([⟨0.5, 0.5, 0⟩, ⟨0, 0.5, demoG 1⟩], [1, 2], true) 0 =
      some ([⟨0.5, 0.5, demoG 2⟩, ⟨0, 0.5, demoG 1⟩], [1, 2], true) := by
    unfold christmasBody
    dsimp only
    rw [if_neg (fun hc => Bool.noConfusion hc.2),
      if_neg (fun hc => absurd hc.1 (asymm (demoG_pos 2)))]
    rfl
  have hb1 : christmasBody 2 (1/255) (0.7 - 1/255) [0, 0.5] 2 [0, 0]
      ([⟨0.5, 0.5, demoG 2⟩, ⟨0, 0.5, demoG 1⟩], [1, 2], true) 1 =
      some ([⟨0.5, 0.5, demoG 2⟩, ⟨0, 0.5, demoG 2⟩], [1, 2], false) := by
    unfold christmasBody
    dsimp only
    rw [if_neg (fun hc => Bool.noConfusion hc.2),
      if_pos ⟨demoG_two_lt_one, rfl⟩]
    rfl
  unfold ChristmasEffect.step
  dsimp only [demoS1]
  rw [if_neg (Nat.one_ne_zero), Option.some_bind]
  dsimp only
  rw [show (min (List.length [(⟨0.5, 0.5, 0⟩ : HSVColour), ⟨0, 0.5, demoG 1⟩])
      (List.length [(0 : ℝ), 0])) = 2 from rfl,
    show List.range 2 = [0, 1] from rfl, hcast]
  simp only [christmasLoop]
  rw [hb0, Option.some_bind, hb1, Option.some_bind]
  simp only [christmasLoop, Option.map_some']
  rfl

/-! ### Claim C3: the shared switch latch of ChristmasEffect -/

/-- C3: the single shared `switched` flag governs hue changes.  Fire event:
when an examined colour's newly computed `V` exceeds its current `V` while
`switched` is off, every palette index advances by exactly 1, every hue is
re-resolved from the palette modulo its length, and the latch closes.
Release event: when a newly computed `V` is below the current `V` while
`switched` is on, the latch releases and nothing else changes.  At every step
whose latch state leaves `current` unchanged (no fire), no colour's `H`
changes.  Concretely, with `hues = [0, 0.5]` and 2 devices, one full
fire-and-release cycle advances each device's palette index by exactly 1
(from `[0, 1]` to `[1, 2]`, swapping the hues), and `H` changes only at the
firing step. -/
theorem claim_C3 :
    (∀ (dV minV Vrange : ℝ) (hues : List ℝ) (n : ℝ) (Vinit : List ℝ)
        (acc : List HSVColour × List ℕ × Bool) (j : ℕ)
        (out : List HSVColour × List ℕ × Bool),
        acc.2.2 = false →
        (acc.1.getD j dfltC).V <
          christmasNewV dV minV Vrange n (Vinit.getD j 0) →
        christmasBody dV minV Vrange hues n Vinit acc j = some out →
        out.2.1 = acc.2.1.map (· + 1) ∧ out.2.2 = true ∧
        ∀ i, i < acc.1.length →
          (out.1.getD i dfltC).H =
            hues.getD ((acc.2.1.getD i 0 + 1) % hues.length) 0) ∧
    (∀ (dV minV Vrange : ℝ) (hues : List ℝ) (n : ℝ) (Vinit : List ℝ)
        (acc : List HSVColour × List ℕ × Bool) (j : ℕ)
        (out : List HSVColour × List ℕ × Bool),
        acc.2.2 = true →
        christmasNewV dV minV Vrange n (Vinit.getD j 0) <
          (acc.1.getD j dfltC).V →
        christmasBody dV minV Vrange hues n Vinit acc j = some out →
        out.1 = acc.1.set j
            { acc.1.getD j dfltC with
                V := christmasNewV dV minV Vrange n (Vinit.getD j 0) } ∧
        out.2.1 = acc.2.1 ∧ out.2.2 = false) ∧
    (∀ (s : ChristmasState) (cs : List HSVColour) (s' : ChristmasState)
        (cs' : List HSVColour), s.nsteps ≠ 0 →
        ChristmasEffect.step s cs = some (s', cs') →
        s'.current = s.current →
        ∀ i, (cs'.getD i dfltC).H = (cs.getD i dfltC).H) ∧
    (ChristmasEffect.step (christmasInit 2 (1/255) 0.7 [0, 0.5])
        [⟨0.3, 0.5, 0⟩, ⟨0.7, 0.5, 0⟩] =
      some (demoS1 none, [⟨0.5, 0.5, 0⟩, ⟨0, 0.5, demoG 1⟩])) ∧
    (ChristmasEffect.step (demoS1 none) [⟨0.5, 0.5, 0⟩, ⟨0, 0.5, demoG 1⟩] =
      some (demoS2 none, [⟨0.5, 0.5, demoG 2⟩, ⟨0, 0.5, demoG 2⟩])) ∧
    (demoS1 none).switched = true ∧ (demoS2 none).switched = false ∧
    (demoS1 none).current = [0, 1].map (· + 1) ∧
    (demoS2 none).current = [0, 1].map (· + 1) :=
  ⟨fun _ _ _ _ _ _ _ _ _ hsw hfire h => christmasBody_fire hsw hfire h,
   fun _ _ _ _ _ _ _ _ _ hsw hrel h => christmasBody_release hsw hrel h,
   fun s cs s' cs' hnz h hcur =>
     (christmasStep_nofire s cs s' cs' hnz h hcur).2,
   christmasDemo_step1, christmasDemo_step2 none, rfl, rfl, rfl, rfl⟩

/-! ### Claim C4: ChristmasEffect.reset does not reset -/

/-- C4: the claim is what `reset` is meant to do, but the source assigns
`self.steps = 0` while the counter attribute is `self.nsteps`.  `reset`
therefore changes nothing the effect ever reads: the counter keeps its value,
and the step after a `reset` reuses the recorded palette indices and arcsin
phases instead of recomputing them — here the counter is still `1` after
`reset`, the next step keeps `current = [1, 2]` and the old `Vinit`, and no
round-robin re-initialization of the hues happens. -/
theorem claim_C4 :
    (∀ s : ChristmasState,
      ChristmasEffect.reset s = { s with steps := some 0 }) ∧
    (∀ s : ChristmasState, (ChristmasEffect.reset s).nsteps = s.nsteps) ∧
    (ChristmasEffect.reset (demoS1 none)).nsteps = 1 ∧
    (ChristmasEffect.step (ChristmasEffect.reset (demoS1 none))
        [⟨0.5, 0.5, 0⟩, ⟨0, 0.5, demoG 1⟩] =
      some (demoS2 (some 0), [⟨0.5, 0.5, demoG 2⟩, ⟨0, 0.5, demoG 2⟩])) ∧
    (demoS2 (some 0)).nsteps = 2 ∧
    (demoS2 (some 0)).current = (demoS1 none).current ∧
    (demoS2 (some 0)).Vinit = (demoS1 none).Vinit :=
  ⟨fun _ => rfl, fun _ => rfl, rfl,
   by
     rw [show ChristmasEffect.reset (demoS1 none) = demoS1 (some 0) from rfl]
     exact christmasDemo_step2 (some 0),
   rfl, rfl, rfl⟩

/-- C3 witness: the release clause evaluated at a concrete configuration
(`dV = 0`, `minV = 1/2`, `Vrange = 0`, one colour with `V = 1`): the new
sinusoid value `1/2` is below the current `V`, so the latch releases, only
that colour's `V` is rewritten, and the palette indices stay put. -/
theorem claim_C3_witness :
    ([(⟨0.3, 0.6, 1/2⟩ : HSVColour)] : List HSVColour) =
      ([(⟨0.3, 0.6, 1⟩ : HSVColour)] : List HSVColour).set 0
        { ([(⟨0.3, 0.6, 1⟩ : HSVColour)] : List HSVColour).getD 0 dfltC with
            V := christmasNewV 0 (1/2) 0 3 (([(0 : ℝ)] : List ℝ).getD 0 0) } ∧
    ([5] : List ℕ) = [5] ∧ (false : Bool) = false := by
  have hnv : christmasNewV 0 (1/2) 0 3 (([(0 : ℝ)] : List ℝ).getD 0 0)
      = 1/2 := by
    unfold christmasNewV
    norm_num
  have hbody : christmasBody 0 (1/2) 0 [0.9] 3 [0]
      ([⟨0.3, 0.6, 1⟩], [5], true) 0 =
      some ([⟨0.3, 0.6, 1/2⟩], [5], false) := by
    unfold christmasBody
    dsimp only
    rw [if_neg (fun hc => Bool.noConfusion hc.2),
      if_pos ⟨by rw [hnv]; norm_num, rfl⟩]
    rw [show ([(⟨0.3, 0.6, 1⟩ : HSVColour)] : List HSVColour).set 0
        { ([(⟨0.3, 0.6, 1⟩ : HSVColour)] : List HSVColour).getD 0 dfltC with
            V := christmasNewV 0 (1/2) 0 3 (([(0 : ℝ)] : List ℝ).getD 0 0) } =
      [⟨0.3, 0.6, christmasNewV 0 (1/2) 0 3 (([(0 : ℝ)] : List ℝ).getD 0 0)⟩]
      from rfl, hnv]
  have h := claim_C3.2.1 0 (1/2) 0 [0.9] 3 [0]
    ([⟨0.3, 0.6, 1⟩], [5], true) 0 ([⟨0.3, 0.6, 1/2⟩], [5], false)
    rfl (by rw [hnv]; norm_num) hbody
  exact h

/-! ### Claim C7: behaviour on mismatched lengths -/

theorem zipApply3_length (f : HSVColour → ℝ → ℝ → HSVColour) :
    ∀ (cs : List HSVColour) (as1 bs : List ℝ),
      (zipApply3 f cs as1 bs).length = cs.length
  | [], as1, bs => by cases as1 <;> cases bs <;> rfl
  | c :: cs, [], bs => rfl
  | c :: cs, a :: as1, [] => rfl
  | c :: cs, a :: as1, b :: bs => by
    simp only [zipApply3, List.length_cons]
    rw [zipApply3_length f cs as1 bs]

theorem zipApply3_drop (f : HSVColour → ℝ → ℝ → HSVColour) :
    ∀ (cs : List HSVColour) (as1 bs : List ℝ),
      (zipApply3 f cs as1 bs).drop (min (min cs.length as1.length) bs.length) =
        cs.drop (min (min cs.length as1.length) bs.length)
  | [], as1, bs => by cases as1 <;> cases bs <;> rfl
  | c :: cs, [], bs => rfl
  | c :: cs, a :: as1, [] => rfl
  | c :: cs, a :: as1, b :: bs => by
    have hmin : min (min (c :: cs).length (a :: as1).length)
        (b :: bs).length = min (min cs.length as1.length) bs.length + 1 := by
      simp only [List.length_cons]
      omega
    rw [hmin]
    simp only [zipApply3, List.drop_succ_cons]
    exact zipApply3_drop f cs as1 bs

/-- Length of the colour list is preserved by every successful
`ChristmasEffect.step`. -/
theorem christmasStep_length (s : ChristmasState) (cs : List HSVColour)
    (s' : ChristmasState) (cs' : List HSVColour)
    (h : ChristmasEffect.step s cs = some (s', cs')) :
    cs'.length = cs.length := by
  unfold ChristmasEffect.step at h
  by_cases hz : s.nsteps = 0
  · rw [if_pos hz] at h
    rcases Option.bind_eq_some.1 h with ⟨init3, hinit, hrest⟩
    rcases Option.bind_eq_some.1 hinit with ⟨vi, _, h2⟩
    rcases Option.map_eq_some'.1 h2 with ⟨cs1, hres, hinit3⟩
    subst hinit3
    rcases Option.map_eq_some'.1 hrest with ⟨out, hloop, hout⟩
    cases hout
    rcases christmasLoop_cases _ _ _ hloop with ⟨_, e2, _⟩ | ⟨_, e2⟩ <;>
      rw [e2] <;> exact resolveHues_length hres
  · rw [if_neg hz, Option.some_bind] at h
    dsimp only at h
    rcases Option.map_eq_some'.1 h with ⟨out, hloop, hout⟩
    cases hout
    rcases christmasLoop_cases _ _ _ hloop with ⟨_, e2, _⟩ | ⟨_, e2⟩ <;>
      exact e2

/-- C7 counterexample: `HSVCycleEffect` stepped with two colours after its
state lists were recorded for a single colour does not fail at all: the
second colour is left exactly unchanged (silent zip truncation), refuting
"fails fast with a ConfigurationError". -/
theorem claim_C7_counterexample :
    HSVCycleEffect.step
      { dH := 0.05, dS := 0, dV := 0, nsteps := 1, minS := 1/255, maxS := 1,
        Srange := 1 - 1/255, minV := 1/255, maxV := 1, Vrange := 1 - 1/255,
        Sinit := [0], Vinit := [0] }
      [⟨0.1, 0.2, 0.3⟩, ⟨0.25, 0.35, 0.45⟩] =
    some ({ dH := 0.05, dS := 0, dV := 0, nsteps := 2, minS := 1/255,
            maxS := 1, Srange := 1 - 1/255, minV := 1/255, maxV := 1,
            Vrange := 1 - 1/255, Sinit := [0], Vinit := [0] },
          [⟨0.15, 128/255, 128/255⟩, ⟨0.25, 0.35, 0.45⟩]) := by
  unfold HSVCycleEffect.step
  dsimp only
  rw [if_neg (Nat.one_ne_zero), Option.map_some']
  refine congrArg some (Prod.ext rfl ?_)
  dsimp only
  simp only [zipApply3]
  have hH : pymod (0.1 + 0.05) 1 = (0.15 : ℝ) := by
    rw [pymod_one]
    norm_num [Int.fract]
  simp only [List.cons.injEq, HSVColour.mk.injEq]
  norm_num [hH, Real.sin_zero, pymod_one, Int.fract]

/-- Per-iteration refinement of `christmasBody_cases`: when the iteration
does not fire, colours at every position other than the examined one are
untouched entirely (not just their `H`). -/
theorem christmasBody_untouched {dV minV Vrange : ℝ} {hues : List ℝ} {n : ℝ}
    {Vinit : List ℝ} {acc : List HSVColour × List ℕ × Bool} {j : ℕ}
    {out : List HSVColour × List ℕ × Bool}
    (h : christmasBody dV minV Vrange hues n Vinit acc j = some out) :
    (out.2.1 = acc.2.1 ∧
      ∀ i, i ≠ j → out.1.getD i dfltC = acc.1.getD i dfltC) ∨
    (acc.2.1.sum < out.2.1.sum) := by
  unfold christmasBody at h
  dsimp only at h
  split_ifs at h with hf hr
  · rcases Option.map_eq_some'.1 h with ⟨cs2, hres, hout⟩
    subst hout
    rcases eq_or_ne acc.2.1 [] with hcur | hcur
    · have hlen0 : acc.1.length = 0 := by
        rcases resolveHues_some_cases hres with h0 | ⟨_, hlen⟩
        · exact h0
        · rw [hcur] at hlen
          simpa using hlen
      have hcs2 : cs2 = [] :=
        List.length_eq_zero.1 ((resolveHues_length hres).trans hlen0)
      have hcs : acc.1 = [] := List.length_eq_zero.1 hlen0
      subst hcs2
      left
      refine ⟨by rw [hcur]; rfl, fun i _ => ?_⟩
      rw [hcs]
      rfl
    · right
      rw [sum_map_add_one]
      have : 0 < acc.2.1.length := List.length_pos.2 hcur
      omega
  · cases h
    left
    refine ⟨rfl, fun i hij => ?_⟩
    rw [getD_set, if_neg (fun hc => hij hc.1.symm)]
  · cases h
    left
    refine ⟨rfl, fun i hij => ?_⟩
    rw [getD_set, if_neg (fun hc => hij hc.1.symm)]

/-- `christmasBody_untouched` lifted to the whole zip loop: when no
iteration fires (witnessed by `current` being unchanged), colours at every
position outside the iterated range are untouched entirely. -/
theorem christmasLoop_untouched {dV minV Vrange : ℝ} {hues : List ℝ} {n : ℝ}
    {Vinit : List ℝ} :
    ∀ (js : List ℕ) (acc out : List HSVColour × List ℕ × Bool),
      christmasLoop dV minV Vrange hues n Vinit js acc = some out →
      (out.2.1 = acc.2.1 ∧
        ∀ i, i ∉ js → out.1.getD i dfltC = acc.1.getD i dfltC) ∨
      (acc.2.1.sum < out.2.1.sum)
  | [], acc, out, h => by
    cases h
    exact Or.inl ⟨rfl, fun i _ => rfl⟩
  | j :: js, acc, out, h => by
    unfold christmasLoop at h
    rcases Option.bind_eq_some.1 h with ⟨mid, hb, hl⟩
    rcases christmasBody_untouched hb with ⟨e1, e2⟩ | e1
    · rcases christmasLoop_untouched js mid out hl with ⟨f1, f2⟩ | f1
      · refine Or.inl ⟨f1.trans e1, fun i hi => ?_⟩
        simp only [List.mem_cons, not_or] at hi
        exact (f2 i hi.2).trans (e2 i hi.1)
      · exact Or.inr ((congrArg List.sum e1.symm).trans_lt f1)
    · rcases christmasLoop_cases js mid out hl with ⟨f1, _, _⟩ | ⟨f1, _⟩
      · exact Or.inr (e1.trans_eq (congrArg List.sum f1.symm))
      · exact Or.inr (e1.trans f1)

/-- At a step whose latch does not fire, the zip loop silently truncates:
every colour past `min (len colours) (len Vinit)` is exactly unchanged. -/
theorem christmasStep_nofire_untouched (s : ChristmasState)
    (cs : List HSVColour) (s' : ChristmasState) (cs' : List HSVColour)
    (hnz : s.nsteps ≠ 0) (h : ChristmasEffect.step s cs = some (s', cs'))
    (hcur : s'.current = s.current) :
    ∀ i, min cs.length s.Vinit.length ≤ i →
      cs'.getD i dfltC = cs.getD i dfltC := by
  unfold ChristmasEffect.step at h
  rw [if_neg hnz, Option.some_bind] at h
  dsimp only at h
  rcases Option.map_eq_some'.1 h with ⟨out, hloop, hout⟩
  cases hout
  intro i hi
  rcases christmasLoop_untouched _ _ _ hloop with ⟨e1, e2⟩ | e1
  · exact e2 i fun hmem => absurd (List.mem_range.1 hmem) (by omega)
  · rw [show out.2.1 = s.current from hcur] at e1
    exact absurd e1 (lt_irrefl _)

theorem christmasNewV2_pos (n v : ℝ) :
    0 < christmasNewV 2 (1/255) (0.7 - 1/255) n v := by
  unfold christmasNewV
  linarith [Real.neg_one_le_sin (v + 2 * n)]

theorem christmasNewV2_le (n v : ℝ) :
    christmasNewV 2 (1/255) (0.7 - 1/255) n v ≤ 0.7 := by
  unfold christmasNewV
  linarith [Real.sin_le_one (v + 2 * n)]

/-- Value of `V` after the non-firing first step of the mismatch scenario. -/
noncomputable def mismatchE : ℝ :=
  christmasNewV 2 (1/255) (0.7 - 1/255) 1 (Real.arcsin 0.7)

/-- State of `ChristmasEffect(V=2, maxV=0.7, hues=[0, 0.5])` after one step
on a single colour whose `V` starts at `maxV` (so the latch never fired):
one recorded palette index, one recorded phase. -/
noncomputable def mismatchS1 : ChristmasState :=
  { dV := 2, minV := 1/255, maxV := 0.7, Vrange := 0.7 - 1/255,
    hues := [0, 0.5], nsteps := 1, switched := false, current := [0],
    Vinit := [Real.arcsin 0.7], steps := none }

/-- Reaching the mismatch state: a first step on one colour with
`V = maxV = 0.7` assigns `H := hues[0]` and records the state, and the latch
does not fire (the sinusoid value cannot exceed `maxV`). -/
theorem christmasMismatch_step1 :
    ChristmasEffect.step (christmasInit 2 (1/255) 0.7 [0, 0.5])
      [⟨0.9, 0.5, 0.7⟩] = some (mismatchS1, [⟨0, 0.5, mismatchE⟩]) := by
  have hasin : pyasin (0.7 : ℝ) = some (Real.arcsin 0.7) :=
    pyasin_of_mem (by norm_num) (by norm_num)
  have hmap : mapO (fun c => pyasin c.V) [(⟨0.9, 0.5, 0.7⟩ : HSVColour)] =
      some [Real.arcsin 0.7] := by
    simp [mapO, hasin]
  have hres : resolveHues [0, 0.5] (List.range 1)
      [(⟨0.9, 0.5, 0.7⟩ : HSVColour)] = some [⟨0, 0.5, 0.7⟩] := by
    simp [resolveHues, show List.range 1 = [0] from rfl]
  have hcast : ((0 + 1 : ℕ) : ℝ) = 1 := by norm_num
  have hb : christmasBody 2 (1/255) (0.7 - 1/255) [0, 0.5] 1
      [Real.arcsin 0.7] ([⟨0, 0.5, 0.7⟩], [0], false) 0 =
      some ([⟨0, 0.5, mismatchE⟩], [0], false) := by
    unfold christmasBody
    dsimp only
    rw [if_neg (fun hc =>
        absurd hc.1 (not_lt.2 (christmasNewV2_le 1 (Real.arcsin 0.7)))),
      if_neg (fun hc => Bool.noConfusion hc.2)]
    rfl
  unfold ChristmasEffect.step
  dsimp only [christmasInit]
  rw [if_pos rfl, hmap, Option.some_bind,
    show List.length [(⟨0.9, 0.5, 0.7⟩ : HSVColour)] = 1 from rfl,
    hres, Option.map_some', Option.some_bind]
  dsimp only
  rw [show (min (List.length [(⟨0, 0.5, 0.7⟩ : HSVColour)])
      (List.length [Real.arcsin 0.7])) = 1 from rfl,
    show List.range 1 = [0] from rfl, hcast]
  simp only [christmasLoop]
  rw [hb, Option.some_bind]
  simp only [christmasLoop, Option.map_some']
  rfl

/-- The mismatch failure: stepping `mismatchS1` (one recorded palette index)
with TWO colours makes the latch fire on the first colour (`V = 0` is below
the sinusoid), and re-resolving the hues indexes `current[1]`, which does
not exist: Python raises `IndexError`, the model returns `none`. -/
theorem christmasMismatch_none :
    ChristmasEffect.step mismatchS1 [⟨0.3, 0.5, 0⟩, ⟨0.8, 0.5, 0⟩] =
      none := by
  have hcast : ((1 + 1 : ℕ) : ℝ) = 2 := by norm_num
  have hb : christmasBody 2 (1/255) (0.7 - 1/255) [0, 0.5] 2
      [Real.arcsin 0.7] ([⟨0.3, 0.5, 0⟩, ⟨0.8, 0.5, 0⟩], [0], false) 0 =
      none := by
    unfold christmasBody
    dsimp only
    rw [if_pos ⟨christmasNewV2_pos 2 (Real.arcsin 0.7), rfl⟩,
      show ([0].map (· + 1)) = [1] from rfl]
    rw [show resolveHues [0, 0.5] [1]
        [(⟨0.3, 0.5, 0⟩ : HSVColour), ⟨0.8, 0.5, 0⟩] = none from by
      unfold resolveHues
      rw [if_neg (by norm_num), if_neg (by norm_num), if_neg (by norm_num)]]
    rfl
  unfold ChristmasEffect.step
  dsimp only [mismatchS1]
  rw [if_neg (Nat.one_ne_zero), Option.some_bind]
  dsimp only
  rw [show (min (List.length [(⟨0.3, 0.5, 0⟩ : HSVColour), ⟨0.8, 0.5, 0⟩])
      (List.length [Real.arcsin 0.7])) = 1 from rfl,
    show List.range 1 = [0] from rfl, hcast]
  simp only [christmasLoop]
  rw [hb]
  rfl

/-- C7 (amended): no stateful effect fails fast with a ConfigurationError
on a length mismatch.  `HSVCycleEffect.step` (after initialization) always
succeeds and silently truncates the update to the first
`min(len colours, len Sinit, len Vinit)` colours, leaving every colour past
that point exactly unchanged.  `ChristmasEffect.step` preserves the
colour-list length whenever it returns, and at a step whose latch does not
fire it silently truncates the same way: every colour past
`min(len colours, len Vinit)` is exactly unchanged.  When the latch does
fire with more colours than recorded palette indices, the step instead
fails with an uncaught `IndexError` from `self.current[i]` (model: `none`)
— an error, but still not a ConfigurationError: shown at a concrete state
reached by one ordinary step on a single colour and then stepped with two
colours. -/
theorem claim_C7 :
    (∀ (s : HSVCycleState) (cs : List HSVColour), s.nsteps ≠ 0 →
      ∃ cs', HSVCycleEffect.step s cs =
          some ({ s with nsteps := s.nsteps + 1 }, cs') ∧
        cs'.length = cs.length ∧
        cs'.drop (min (min cs.length s.Sinit.length) s.Vinit.length) =
          cs.drop (min (min cs.length s.Sinit.length) s.Vinit.length)) ∧
    (∀ (s : ChristmasState) (cs : List HSVColour) (s' : ChristmasState)
        (cs' : List HSVColour),
      ChristmasEffect.step s cs = some (s', cs') →
      cs'.length = cs.length) ∧
    (∀ (s : ChristmasState) (cs : List HSVColour) (s' : ChristmasState)
        (cs' : List HSVColour), s.nsteps ≠ 0 →
      ChristmasEffect.step s cs = some (s', cs') →
      s'.current = s.current →
      ∀ i, min cs.length s.Vinit.length ≤ i →
        cs'.getD i dfltC = cs.getD i dfltC) ∧
    (ChristmasEffect.step (christmasInit 2 (1/255) 0.7 [0, 0.5])
        [⟨0.9, 0.5, 0.7⟩] = some (mismatchS1, [⟨0, 0.5, mismatchE⟩])) ∧
    (ChristmasEffect.step mismatchS1 [⟨0.3, 0.5, 0⟩, ⟨0.8, 0.5, 0⟩] =
      none) ∧
    mismatchS1.current.length = 1 := by
  refine ⟨?_, christmasStep_length, christmasStep_nofire_untouched,
    christmasMismatch_step1, christmasMismatch_none, rfl⟩
  intro s cs hnz
  unfold HSVCycleEffect.step
  rw [if_neg hnz, Option.map_some']
  exact ⟨_, rfl, zipApply3_length _ cs s.Sinit s.Vinit,
    zipApply3_drop _ cs s.Sinit s.Vinit⟩

/-- C7 witness: the amended claim applied to the mismatched concrete call of
the counterexample. -/
theorem claim_C7_witness :
    ∃ cs', HSVCycleEffect.step
      { dH := 0.05, dS := 0, dV := 0, nsteps := 1, minS := 1/255, maxS := 1,
        Srange := 1 - 1/255, minV := 1/255, maxV := 1, Vrange := 1 - 1/255,
        Sinit := [0], Vinit := [0] }
      [⟨0.1, 0.2, 0.3⟩, ⟨0.25, 0.35, 0.45⟩] =
      some ({ dH := 0.05, dS := 0, dV := 0, nsteps := 1 + 1, minS := 1/255,
              maxS := 1, Srange := 1 - 1/255, minV := 1/255, maxV := 1,
              Vrange := 1 - 1/255, Sinit := [0], Vinit := [0] }, cs') ∧
      cs'.length = 2 ∧ cs'.drop 1 = [⟨0.25, 0.35, 0.45⟩] :=
  claim_C7.1
    { dH := 0.05, dS := 0, dV := 0, nsteps := 1, minS := 1/255, maxS := 1,
      Srange := 1 - 1/255, minV := 1/255, maxV := 1, Vrange := 1 - 1/255,
      Sinit := [0], Vinit := [0] }
    [⟨0.1, 0.2, 0.3⟩, ⟨0.25, 0.35, 0.45⟩] (by norm_num)

/-! ### Claim C10: totality of the first step under bounded S, V -/

theorem hsvStep_isSome_of_bounds (s : HSVCycleState) (cs : List HSVColour)
    (hb : ∀ c ∈ cs, (-1 ≤ c.S ∧ c.S ≤ 1) ∧ (-1 ≤ c.V ∧ c.V ≤ 1)) :
    (HSVCycleEffect.step s cs).isSome = true := by
  unfold HSVCycleEffect.step
  by_cases hz : s.nsteps = 0
  · rw [if_pos hz,
      mapO_eq_some_of_forall fun c hc =>
        pyasin_of_mem (hb c hc).1.1 (hb c hc).1.2,
      Option.some_bind,
      mapO_eq_some_of_forall fun c hc =>
        pyasin_of_mem (hb c hc).2.1 (hb c hc).2.2,
      Option.map_some', Option.map_some']
    rfl
  · rw [if_neg hz, Option.map_some']
    rfl

theorem christmasStep_first_isSome (V minV maxV : ℝ) (hues : List ℝ)
    (hh : ¬ hues.length = 0) (cs : List HSVColour)
    (hb : ∀ c ∈ cs, -1 ≤ c.V ∧ c.V ≤ 1) :
    (ChristmasEffect.step (christmasInit V minV maxV hues) cs).isSome
      = true := by
  unfold ChristmasEffect.step
  dsimp only [christmasInit]
  rw [if_pos rfl,
    mapO_eq_some_of_forall fun c hc =>
      pyasin_of_mem (hb c hc).1 (hb c hc).2,
    Option.some_bind]
  rcases resolveHues_isSome cs hh
      (by simp : cs.length ≤ (List.range cs.length).length)
    with ⟨cs1, hres, hlen1⟩
  rw [hres, Option.map_some', Option.some_bind]
  dsimp only
  rcases christmasLoop_isSome hh
      (List.range (min cs1.length (cs.map fun c => Real.arcsin c.V).length))
      (cs1, List.range cs.length, false)
      (by simp [hlen1])
    with ⟨out, hloop, _, _⟩
  rw [hloop, Option.map_some']
  rfl

theorem hsvStep_V2_none :
    HSVCycleEffect.step (hsvCycleInit 0.05 0 0 (1/255) 1 (1/255) 1)
      [⟨0, 0, 2⟩] = none := by
  have h0 : pyasin (0 : ℝ) = some 0 := by
    rw [pyasin_of_mem (by norm_num) (by norm_num), Real.arcsin_zero]
  have hS : mapO (fun c => pyasin c.S) [(⟨0, 0, 2⟩ : HSVColour)] =
      some [0] := by
    simp [mapO, h0]
  have hV : mapO (fun c => pyasin c.V) [(⟨0, 0, 2⟩ : HSVColour)] = none := by
    have h2 : pyasin (2 : ℝ) = none := by
      unfold pyasin
      rw [if_neg (by norm_num)]
    simp [mapO, h2]
  unfold HSVCycleEffect.step
  dsimp only [hsvCycleInit]
  rw [if_pos rfl, hS, Option.some_bind, hV]
  rfl

theorem christmasStep_V2_none :
    ChristmasEffect.step (christmasInit 0.1 (1/255) 0.7 [0, 51/360, 0.33])
      [⟨0, 0, 2⟩] = none := by
  have hV : mapO (fun c => pyasin c.V) [(⟨0, 0, 2⟩ : HSVColour)] = none := by
    have h2 : pyasin (2 : ℝ) = none := by
      unfold pyasin
      rw [if_neg (by norm_num)]
    simp [mapO, h2]
  unfold ChristmasEffect.step
  dsimp only [christmasInit]
  rw [if_pos rfl, hV]
  rfl

/-- C10: for every non-empty colour list whose `S` and `V` all lie in
`[0, 1]`, the first step of `HSVCycleEffect` (defaults) and of
`ChristmasEffect` (defaults) is total — the arcsin phase computations stay
inside arcsin's domain `[-1, 1]` — and the bound is a genuine precondition:
with `V = 2` the very first step fails (the arcsin model returns `none`,
Python raises `ValueError`). -/
theorem claim_C10 :
    (∀ cs : List HSVColour, cs ≠ [] →
      (∀ c ∈ cs, (0 ≤ c.S ∧ c.S ≤ 1) ∧ (0 ≤ c.V ∧ c.V ≤ 1)) →
      (HSVCycleEffect.step (hsvCycleInit 0.05 0 0 (1/255) 1 (1/255) 1)
          cs).isSome = true ∧
      (ChristmasEffect.step (christmasInit 0.1 (1/255) 0.7 [0, 51/360, 0.33])
          cs).isSome = true) ∧
    HSVCycleEffect.step (hsvCycleInit 0.05 0 0 (1/255) 1 (1/255) 1)
      [⟨0, 0, 2⟩] = none ∧
    ChristmasEffect.step (christmasInit 0.1 (1/255) 0.7 [0, 51/360, 0.33])
      [⟨0, 0, 2⟩] = none :=
  ⟨fun cs _ hb =>
    ⟨hsvStep_isSome_of_bounds _ cs fun c hc =>
      ⟨⟨le_trans (by norm_num) (hb c hc).1.1, (hb c hc).1.2⟩,
       ⟨le_trans (by norm_num) (hb c hc).2.1, (hb c hc).2.2⟩⟩,
     christmasStep_first_isSome 0.1 (1/255) 0.7 [0, 51/360, 0.33]
      (by norm_num) cs fun c hc =>
      ⟨le_trans (by norm_num) (hb c hc).2.1, (hb c hc).2.2⟩⟩,
   hsvStep_V2_none, christmasStep_V2_none⟩

/-- C10 witness: the totality clause evaluated on the single colour
`(0.5, 0.5, 0.5)`. -/
theorem claim_C10_witness :
    (HSVCycleEffect.step (hsvCycleInit 0.05 0 0 (1/255) 1 (1/255) 1)
        [⟨0.5, 0.5, 0.5⟩]).isSome = true ∧
    (ChristmasEffect.step (christmasInit 0.1 (1/255) 0.7 [0, 51/360, 0.33])
        [⟨0.5, 0.5, 0.5⟩]).isSome = true :=
  claim_C10.1 [⟨0.5, 0.5, 0.5⟩] (by simp)
    (fun c hc => by
      simp only [List.mem_singleton] at hc
      subst hc
      exact ⟨⟨by norm_num, by norm_num⟩, ⟨by norm_num, by norm_num⟩⟩)

/-! ### The remaining effects: Random, ChristmasR, ChristmasRA, SpreadReset,
Combined -/

/-- Model of `for i, x in enumerate(l): x = f i x`, with `k` the value the
ambient counter has at the first element (used both for enumerate indices,
starting at `k = 0`, and for threading the position in the random stream). -/
def enumApply (f : ℕ → α → β) (k : ℕ) : List α → List β
  | [] => []
  | a :: l => f k a :: enumApply f (k + 1) l

/-- `RandomEffect.step` from `noel.py`: every colour's `H` is assigned the
next value of the random stream; `S`, `V` untouched.  Returns the updated
colours and the advanced stream position. -/
noncomputable def RandomEffect.step (rng : ℕ → ℝ) (k : ℕ)
    (colours : List HSVColour) : List HSVColour × ℕ :=
  (enumApply (fun i c => { c with H := rng i }) k colours,
   k + colours.length)

/-- Internal state of `ChristmasEffectR` (`noel.py` lines 169-200). -/
structure ChristmasRState where
  dV : ℝ
  minV : ℝ
  maxV : ℝ
  Vrange : ℝ
  V : ℝ
  Vinit : ℝ
  nsteps : ℕ
  switched : Bool

/-- `ChristmasEffectR.__init__` with the source's default arguments
(`V=0.1`, `minV=1/255`, `maxV=0.7`). -/
def christmasRInit (V : ℝ := 0.1) (minV : ℝ := 1/255) (maxV : ℝ := 0.7) :
    ChristmasRState :=
  { dV := V, minV := minV, maxV := maxV, Vrange := maxV - minV,
    V := maxV, Vinit := maxV, nsteps := 0, switched := false }

/-- `ChristmasEffectR.setrandomhues`: one fresh random base hue, the `K`
colours spread at distance `1/K` from it.  With no colours the `1/len`
raises `ZeroDivisionError` (`none`). -/
noncomputable def setrandomhues (rng : ℕ → ℝ) (k : ℕ)
    (colours : List HSVColour) : Option (List HSVColour × ℕ) :=
  if colours.length = 0 then none
  else
    some (enumApply (fun i c =>
        { c with H := pymod (rng k + (1 / (colours.length : ℝ)) * i) 1 })
      0 colours, k + 1)

/-- `ChristmasEffectR.step` from `noel.py`: one shared sinusoid from the
scalar `Vinit` phase; on first call reset every `V` and draw random hues;
fire draws fresh random hues, release clears the latch; finally every colour
receives the shared new `V`. -/
noncomputable def ChristmasEffectR.step (s : ChristmasRState) (rng : ℕ → ℝ)
    (k : ℕ) (colours : List HSVColour) :
    Option (ChristmasRState × List HSVColour × ℕ) :=
  (if s.nsteps = 0 then
      setrandomhues rng k (colours.map fun c => { c with V := s.Vinit })
    else some (colours, k)).bind fun ck =>
    let newV := s.minV + s.Vrange *
      (1 + Real.sin (s.Vinit + s.dV * ((s.nsteps + 1 : ℕ) : ℝ))) / 2
    (if newV > s.V ∧ s.switched = false then
        (setrandomhues rng ck.2 ck.1).map fun ck2 => (ck2.1, ck2.2, true)
      else if newV < s.V ∧ s.switched = true then some (ck.1, ck.2, false)
      else some (ck.1, ck.2, s.switched)).map fun ckb =>
      ({ s with nsteps := s.nsteps + 1, V := newV, switched := ckb.2.2 },
       ckb.1.map fun c => { c with V := newV }, ckb.2.1)

/-- Internal state of `ChristmasEffectRA` (`noel.py` lines 204-232).
`switched` is the per-device latch list (a plain `False` before the first
step in the source, never read in that shape). -/
structure ChristmasRAState where
  dV : ℝ
  minV : ℝ
  maxV : ℝ
  Vrange : ℝ
  stepamp : ℝ
  nsteps : ℕ
  Vinit : List ℝ
  switched : List Bool
  stepsize : List ℝ

/-- `ChristmasEffectRA.__init__` with the source's default arguments. -/
def christmasRAInit (V : ℝ := 0.1) (minV : ℝ := 1/255) (maxV : ℝ := 0.7)
    (stepamp : ℝ := 0.3) : ChristmasRAState :=
  { dV := V, minV := minV, maxV := maxV, Vrange := maxV - minV,
    stepamp := stepamp, nsteps := 0, Vinit := [], switched := [],
    stepsize := [] }

/-- One iteration of `ChristmasEffectRA.step`'s zip loop at position `j`,
acting on `(colours, switched, stream position)`.  The `and` conditions
short-circuit as in Python: `switched[i]` is only read (and can only raise
`IndexError`, modelled `none`) when the `V` comparison on its side holds. -/
noncomputable def christmasRABody (dV minV Vrange : ℝ) (n : ℝ)
    (Vinit stepsize : List ℝ) (rng : ℕ → ℝ)
    (acc : List HSVColour × List Bool × ℕ) (j : ℕ) :
    Option (List HSVColour × List Bool × ℕ) :=
  let newV := minV + Vrange *
    (1 + Real.sin (Vinit.getD j 0 + dV * n * stepsize.getD j 0)) / 2
  let cj := acc.1.getD j dfltC
  if newV > cj.V then
    (acc.2.1.get? j).bind fun sw =>
      if sw = false then
        some (acc.1.set j { cj with H := rng acc.2.2, V := newV },
          acc.2.1.set j true, acc.2.2 + 1)
      else some (acc.1.set j { cj with V := newV }, acc.2.1, acc.2.2)
  else if newV < cj.V then
    (acc.2.1.get? j).bind fun sw =>
      if sw = true then
        some (acc.1.set j { cj with V := newV }, acc.2.1.set j false,
          acc.2.2)
      else some (acc.1.set j { cj with V := newV }, acc.2.1, acc.2.2)
  else some (acc.1.set j { cj with V := newV }, acc.2.1, acc.2.2)

/-- The whole zip loop of `ChristmasEffectRA.step`. -/
noncomputable def christmasRALoop (dV minV Vrange : ℝ) (n : ℝ)
    (Vinit stepsize : List ℝ) (rng : ℕ → ℝ) :
    List ℕ → List HSVColour × List Bool × ℕ →
      Option (List HSVColour × List Bool × ℕ)
  | [], acc => some acc
  | j :: js, acc =>
    (christmasRABody dV minV Vrange n Vinit stepsize rng acc j).bind
      (christmasRALoop dV minV Vrange n Vinit stepsize rng js)

/-- `ChristmasEffectRA.step` from `noel.py`: on the first call draw a random
`V` anchor and a random step-size jitter per device; each step runs each
device's own sinusoid with its own latch, drawing a fresh random hue at each
per-device fire. -/
noncomputable def ChristmasEffectRA.step (s : ChristmasRAState)
    (rng : ℕ → ℝ) (k : ℕ) (colours : List HSVColour) :
    Option (ChristmasRAState × List HSVColour × ℕ) :=
  let init4 : List ℝ × List Bool × List ℝ × ℕ :=
    if s.nsteps = 0 then
      let vinit := enumApply
        (fun i _ => s.minV + rng i * (s.maxV - s.minV)) k colours
      let k1 := k + colours.length
      let sw := colours.map fun _ => false
      let ss := enumApply
        (fun i _ => 1 - s.stepamp + rng i * (2 * s.stepamp)) k1 colours
      (vinit, sw, ss, k1 + colours.length)
    else (s.Vinit, s.switched, s.stepsize, k)
  (christmasRALoop s.dV s.minV s.Vrange ((s.nsteps + 1 : ℕ) : ℝ) init4.1
      init4.2.2.1 rng
      (List.range (min colours.length
        (min init4.1.length init4.2.2.1.length)))
      (colours, init4.2.1, init4.2.2.2)).map fun out =>
    ({ s with
        nsteps := s.nsteps + 1
        Vinit := init4.1
        switched := out.2.1
        stepsize := init4.2.2.1 }, out.1, out.2.2)

/-- The hue chain of `SpreadResetEffect.step`: each colour is rebuilt from
its (already updated) predecessor, offset by the fixed distance; the old
colour's own fields are never read. -/
noncomputable def spreadChain (d : ℝ) : HSVColour → List HSVColour →
    List HSVColour
  | _, [] => []
  | prev, _ :: rest =>
    ⟨pymod (prev.H + d) 1, prev.S, prev.V⟩ ::
      spreadChain d ⟨pymod (prev.H + d) 1, prev.S, prev.V⟩ rest

/-- `SpreadResetEffect.step` from `noel.py`.  The source reads the
module-level global `devices` (the discovered device list, modelled by its
length `ndevices`) to build the spread, of which only element 0 is used;
with no colours the `1/len(colours)` raises `ZeroDivisionError`, and with no
devices the `rcs[0]` raises `IndexError` (both `none`). -/
noncomputable def SpreadResetEffect.step (ndevices : ℕ)
    (colours : List HSVColour) : Option (List HSVColour) :=
  if colours.length = 0 then none
  else
    (generateSpreadColours ndevices (1 / (colours.length : ℝ))).head?.map
      fun r0 =>
        ⟨r0.H, r0.S, r0.V⟩ ::
          spreadChain (1 / (colours.length : ℝ)) ⟨r0.H, r0.S, r0.V⟩
            colours.tail

/-- `CombinedEffects.step` from `noel.py`: the sub-effects' step functions
applied to the shared colour list in order, by sequential mutation. -/
def CombinedEffects.step (effects : List (List HSVColour → List HSVColour))
    (colours : List HSVColour) : List HSVColour :=
  effects.foldl (fun cs e => e cs) colours

/-! ### Claim C9: SpreadResetEffect on three colours -/

theorem generateSpreadColours_head (k : ℕ) (hk : 1 ≤ k) (d : ℝ)
    (hd : d ≠ -1) :
    (generateSpreadColours k d).head? = some ⟨pymod (0.6 + d * 0) 1, 0.99, 0.7⟩ := by
  obtain ⟨m, rfl⟩ : ∃ m, k = m + 1 := ⟨k - 1, by omega⟩
  unfold generateSpreadColours
  rw [List.range_succ_eq_map]
  simp only [List.map_cons, List.head?_cons, if_neg hd, Nat.cast_zero]

theorem pymod_one_chain (x d : ℝ) :
    pymod (pymod (x + d) 1 - x) 1 = pymod d 1 := by
  rw [pymod_one, pymod_one, pymod_one]
  rw [show Int.fract (x + d) - x = d - ⌊x + d⌋ by unfold Int.fract; ring]
  exact Int.fract_sub_int _ _

theorem pymod_one_shift (x y : ℝ) :
    pymod (pymod x 1 + y) 1 = pymod (x + y) 1 := by
  rw [pymod_one, pymod_one, pymod_one]
  rw [show Int.fract x + y = x + y - ⌊x⌋ by unfold Int.fract; ring]
  exact Int.fract_sub_int _ _

theorem pymod_one_sub_chain (x y : ℝ) :
    pymod (x - pymod (x + y) 1) 1 = pymod (-y) 1 := by
  rw [pymod_one, pymod_one, pymod_one]
  rw [show x - Int.fract (x + y) = -y + ⌊x + y⌋ by unfold Int.fract; ring]
  exact Int.fract_add_int _ _

/-- C9: on any 3-colour input (with at least one discovered device, so that
the source's `rcs[0]` exists), `SpreadResetEffect.step` yields 3 colours
whose hues are pairwise equidistant by exactly `1/3` around the circle, with
identical `S` and identical `V`, regardless of the input colours. -/
theorem claim_C9 (ndev : ℕ) (hndev : 1 ≤ ndev) (c0 c1 c2 : HSVColour) :
    ∃ r0 r1 r2 : HSVColour,
      SpreadResetEffect.step ndev [c0, c1, c2] = some [r0, r1, r2] ∧
      pymod (r1.H - r0.H) 1 = 1/3 ∧ pymod (r2.H - r1.H) 1 = 1/3 ∧
      pymod (r0.H - r2.H) 1 = 1/3 ∧
      r0.S = r1.S ∧ r1.S = r2.S ∧ r0.V = r1.V ∧ r1.V = r2.V := by
  have hlen : (List.length [c0, c1, c2] : ℝ) = 3 := by norm_num
  have hd3 : (1 / (List.length [c0, c1, c2] : ℝ)) = 1/3 := by
    rw [hlen]
  unfold SpreadResetEffect.step
  rw [if_neg (by norm_num), hd3,
    generateSpreadColours_head ndev hndev (1/3) (by norm_num),
    Option.map_some']
  simp only [List.tail_cons, spreadChain]
  refine ⟨_, _, _, rfl, ?_, ?_, ?_, rfl, rfl, rfl, rfl⟩
  · dsimp only
    rw [pymod_one_chain]
    exact pymod_one_eq_self (by norm_num) (by norm_num)
  · dsimp only
    rw [pymod_one_chain]
    exact pymod_one_eq_self (by norm_num) (by norm_num)
  · dsimp only
    rw [pymod_one_shift, show pymod (0.6 + 1/3 * 0) 1 + 1/3 + 1/3
        = pymod (0.6 + 1/3 * 0) 1 + (1/3 + 1/3) by ring,
      pymod_one_sub_chain]
    rw [pymod_one]
    norm_num [Int.fract]

/-- C9 witness: the theorem evaluated at 3 devices and a concrete 3-colour
list. -/
theorem claim_C9_witness :
    ∃ r0 r1 r2 : HSVColour,
      SpreadResetEffect.step 3
        [⟨0.9, 0.1, 0.2⟩, ⟨0.15, 0.25, 0.35⟩, ⟨0.4, 0.5, 0.6⟩] =
        some [r0, r1, r2] ∧
      pymod (r1.H - r0.H) 1 = 1/3 ∧ pymod (r2.H - r1.H) 1 = 1/3 ∧
      pymod (r0.H - r2.H) 1 = 1/3 ∧
      r0.S = r1.S ∧ r1.S = r2.S ∧ r0.V = r1.V ∧ r1.V = r2.V :=
  claim_C9 3 (by norm_num) ⟨0.9, 0.1, 0.2⟩ ⟨0.15, 0.25, 0.35⟩ ⟨0.4, 0.5, 0.6⟩

/-! ### Claim C8: every hue update lands in [0, 1) -/

/-- Invariant of the data model: every colour's `H` lies in `[0, 1)`. -/
def Hin (cs : List HSVColour) : Prop := ∀ c ∈ cs, 0 ≤ c.H ∧ c.H < 1

theorem getD_mem_of_lt {l : List α} {n : ℕ} (d : α) (h : n < l.length) :
    l.getD n d ∈ l := by
  rw [List.getD_eq_getElem?_getD, List.getElem?_eq_getElem h]
  exact List.getElem_mem h

theorem Hin_set_V {cs : List HSVColour} (h : Hin cs) (j : ℕ) (v : ℝ) :
    Hin (cs.set j { cs.getD j dfltC with V := v }) := by
  intro c hc
  rcases List.mem_or_eq_of_mem_set hc with hm | rfl
  · exact h c hm
  · by_cases hj : j < cs.length
    · exact h (cs.getD j dfltC) (getD_mem_of_lt dfltC hj)
    · rw [List.getD_eq_getElem?_getD, List.getElem?_eq_none (by omega)]
      norm_num [dfltC]

theorem Hin_set_HV {cs : List HSVColour} (h : Hin cs) (j : ℕ) (hv nv : ℝ)
    (hh : 0 ≤ hv ∧ hv < 1) :
    Hin (cs.set j { cs.getD j dfltC with H := hv, V := nv }) := by
  intro c hc
  rcases List.mem_or_eq_of_mem_set hc with hm | rfl
  · exact h c hm
  · exact hh

theorem Hin_enumApply (f : ℕ → HSVColour → HSVColour)
    (hf : ∀ i c, 0 ≤ (f i c).H ∧ (f i c).H < 1) :
    ∀ (k : ℕ) (cs : List HSVColour), Hin (enumApply f k cs)
  | _, [] => by intro c hc; cases hc
  | k, c :: cs => by
    intro x hx
    rcases List.mem_cons.1 hx with rfl | hm
    · exact hf k c
    · exact Hin_enumApply f hf (k + 1) cs x hm

theorem Hin_zipApply3 (f : HSVColour → ℝ → ℝ → HSVColour)
    (hf : ∀ c a b, 0 ≤ (f c a b).H ∧ (f c a b).H < 1) :
    ∀ (cs : List HSVColour) (as1 bs : List ℝ), Hin cs →
      Hin (zipApply3 f cs as1 bs)
  | [], as1, bs, h => by cases as1 <;> cases bs <;> exact h
  | c :: cs, [], bs, h => h
  | c :: cs, a :: as1, [], h => h
  | c :: cs, a :: as1, b :: bs, h => by
    intro x hx
    rcases List.mem_cons.1 hx with rfl | hm
    · exact hf c a b
    · exact Hin_zipApply3 f hf cs as1 bs (fun y hy => h y (by simp [hy]))
        x hm

theorem Hin_resolveHues {hues : List ℝ} {current : List ℕ}
    {cs cs' : List HSVColour} (hhue : ∀ x ∈ hues, 0 ≤ x ∧ x < 1)
    (h : resolveHues hues current cs = some cs') (hcs : Hin cs) :
    Hin cs' := by
  unfold resolveHues at h
  split_ifs at h with h0 h1 h2
  · cases h; exact hcs
  · cases h
    intro c hc
    rcases List.mem_map.1 hc with ⟨i, _, rfl⟩
    have hidx : current.getD i 0 % hues.length < hues.length :=
      Nat.mod_lt _ (by omega)
    exact hhue _ (getD_mem_of_lt 0 hidx)

theorem Hin_spreadChain (d : ℝ) :
    ∀ (prev : HSVColour) (rest : List HSVColour),
      Hin (spreadChain d prev rest)
  | _, [] => by intro c hc; cases hc
  | prev, _ :: rest => by
    intro x hx
    rcases List.mem_cons.1 hx with rfl | hm
    · exact ⟨pymod_one_nonneg _, pymod_one_lt_one _⟩
    · exact Hin_spreadChain d _ rest x hm

theorem hsvStep_Hin (s : HSVCycleState) (cs : List HSVColour)
    (s' : HSVCycleState) (cs' : List HSVColour)
    (h : HSVCycleEffect.step s cs = some (s', cs')) (hcs : Hin cs) :
    Hin cs' := by
  unfold HSVCycleEffect.step at h
  rcases Option.map_eq_some'.1 h with ⟨p, _, hout⟩
  cases hout
  exact Hin_zipApply3 _
    (fun c a b => ⟨pymod_one_nonneg _, pymod_one_lt_one _⟩) cs p.1 p.2 hcs

theorem randomStep_Hin (rng : ℕ → ℝ) (hr : ∀ n, 0 ≤ rng n ∧ rng n < 1)
    (k : ℕ) (cs : List HSVColour) :
    Hin (RandomEffect.step rng k cs).1 := by
  unfold RandomEffect.step
  exact Hin_enumApply _ (fun i c => hr i) k cs

theorem christmasBody_Hin {dV minV Vrange : ℝ} {hues : List ℝ} {n : ℝ}
    {Vinit : List ℝ} {acc : List HSVColour × List ℕ × Bool} {j : ℕ}
    {out : List HSVColour × List ℕ × Bool}
    (hhue : ∀ x ∈ hues, 0 ≤ x ∧ x < 1)
    (h : christmasBody dV minV Vrange hues n Vinit acc j = some out)
    (hcs : Hin acc.1) : Hin out.1 := by
  unfold christmasBody at h
  dsimp only at h
  split_ifs at h with hf hr
  · rcases Option.map_eq_some'.1 h with ⟨cs2, hres, hout⟩
    subst hout
    exact Hin_set_V (Hin_resolveHues hhue hres hcs) _ _
  · cases h
    exact Hin_set_V hcs j _
  · cases h
    exact Hin_set_V hcs j _

theorem christmasLoop_Hin {dV minV Vrange : ℝ} {hues : List ℝ} {n : ℝ}
    {Vinit : List ℝ} (hhue : ∀ x ∈ hues, 0 ≤ x ∧ x < 1) :
    ∀ (js : List ℕ) (acc out : List HSVColour × List ℕ × Bool),
      christmasLoop dV minV Vrange hues n Vinit js acc = some out →
      Hin acc.1 → Hin out.1
  | [], acc, out, h, hcs => by cases h; exact hcs
  | j :: js, acc, out, h, hcs => by
    unfold christmasLoop at h
    rcases Option.bind_eq_some.1 h with ⟨mid, hb, hl⟩
    exact christmasLoop_Hin hhue js mid out hl
      (christmasBody_Hin hhue hb hcs)

theorem christmasStep_Hin (s : ChristmasState) (cs : List HSVColour)
    (s' : ChristmasState) (cs' : List HSVColour)
    (hhue : ∀ x ∈ s.hues, 0 ≤ x ∧ x < 1)
    (h : ChristmasEffect.step s cs = some (s', cs')) (hcs : Hin cs) :
    Hin cs' := by
  unfold ChristmasEffect.step at h
  by_cases hz : s.nsteps = 0
  · rw [if_pos hz] at h
    rcases Option.bind_eq_some.1 h with ⟨init3, hinit, hrest⟩
    rcases Option.bind_eq_some.1 hinit with ⟨vi, _, h2⟩
    rcases Option.map_eq_some'.1 h2 with ⟨cs1, hres, hinit3⟩
    subst hinit3
    rcases Option.map_eq_some'.1 hrest with ⟨out, hloop, hout⟩
    cases hout
    exact christmasLoop_Hin hhue _ _ _ hloop (Hin_resolveHues hhue hres hcs)
  · rw [if_neg hz, Option.some_bind] at h
    dsimp only at h
    rcases Option.map_eq_some'.1 h with ⟨out, hloop, hout⟩
    cases hout
    exact christmasLoop_Hin hhue _ _ _ hloop hcs

theorem setrandomhues_Hin (rng : ℕ → ℝ) (k : ℕ) (cs : List HSVColour)
    (out : List HSVColour × ℕ) (h : setrandomhues rng k cs = some out) :
    Hin out.1 := by
  unfold setrandomhues at h
  split_ifs at h with h0
  cases h
  exact Hin_enumApply _
    (fun i c => ⟨pymod_one_nonneg _, pymod_one_lt_one _⟩) 0 cs

theorem christmasRStep_Hin (s : ChristmasRState) (rng : ℕ → ℝ) (k : ℕ)
    (cs : List HSVColour) (out : ChristmasRState × List HSVColour × ℕ)
    (h : ChristmasEffectR.step s rng k cs = some out) (hcs : Hin cs) :
    Hin out.2.1 := by
  unfold ChristmasEffectR.step at h
  rcases Option.bind_eq_some.1 h with ⟨ck, hck, h2⟩
  have hck1 : Hin ck.1 := by
    by_cases hz : s.nsteps = 0
    · rw [if_pos hz] at hck
      exact setrandomhues_Hin _ _ _ _ hck
    · rw [if_neg hz] at hck
      cases hck
      exact hcs
  dsimp only at h2
  rcases Option.map_eq_some'.1 h2 with ⟨ckb, hckb, hout⟩
  subst hout
  have hckb1 : Hin ckb.1 := by
    split_ifs at hckb with hf hr
    · rcases Option.map_eq_some'.1 hckb with ⟨ck2, hsrh, hckb2⟩
      subst hckb2
      exact setrandomhues_Hin _ _ _ _ hsrh
    · cases hckb
      exact hck1
    · cases hckb
      exact hck1
  intro c hc
  rcases List.mem_map.1 hc with ⟨c0, hc0, rfl⟩
  exact hckb1 c0 hc0

theorem christmasRABody_Hin {dV minV Vrange : ℝ} {n : ℝ}
    {Vinit stepsize : List ℝ} {rng : ℕ → ℝ}
    {acc : List HSVColour × List Bool × ℕ} {j : ℕ}
    {out : List HSVColour × List Bool × ℕ}
    (hr : ∀ m, 0 ≤ rng m ∧ rng m < 1)
    (h : christmasRABody dV minV Vrange n Vinit stepsize rng acc j
      = some out) (hcs : Hin acc.1) : Hin out.1 := by
  unfold christmasRABody at h
  dsimp only at h
  split_ifs at h with h1 h2
  · rcases Option.bind_eq_some.1 h with ⟨sw, _, hif⟩
    split_ifs at hif
    · cases hif
      exact Hin_set_HV hcs j _ _ (hr acc.2.2)
    · cases hif
      exact Hin_set_V hcs j _
  · rcases Option.bind_eq_some.1 h with ⟨sw, _, hif⟩
    split_ifs at hif
    · cases hif
      exact Hin_set_V hcs j _
    · cases hif
      exact Hin_set_V hcs j _
  · cases h
    exact Hin_set_V hcs j _

theorem christmasRALoop_Hin {dV minV Vrange : ℝ} {n : ℝ}
    {Vinit stepsize : List ℝ} {rng : ℕ → ℝ}
    (hr : ∀ m, 0 ≤ rng m ∧ rng m < 1) :
    ∀ (js : List ℕ) (acc out : List HSVColour × List Bool × ℕ),
      christmasRALoop dV minV Vrange n Vinit stepsize rng js acc = some out →
      Hin acc.1 → Hin out.1
  | [], acc, out, h, hcs => by cases h; exact hcs
  | j :: js, acc, out, h, hcs => by
    unfold christmasRALoop at h
    rcases Option.bind_eq_some.1 h with ⟨mid, hb, hl⟩
    exact christmasRALoop_Hin hr js mid out hl (christmasRABody_Hin hr hb hcs)

theorem christmasRAStep_Hin (s : ChristmasRAState) (rng : ℕ → ℝ) (k : ℕ)
    (cs : List HSVColour) (out : ChristmasRAState × List HSVColour × ℕ)
    (hr : ∀ m, 0 ≤ rng m ∧ rng m < 1)
    (h : ChristmasEffectRA.step s rng k cs = some out) (hcs : Hin cs) :
    Hin out.2.1 := by
  unfold ChristmasEffectRA.step at h
  dsimp only at h
  rcases Option.map_eq_some'.1 h with ⟨lout, hloop, hout⟩
  subst hout
  exact christmasRALoop_Hin hr _ _ _ hloop hcs

theorem spreadResetStep_Hin (ndev : ℕ) (cs cs' : List HSVColour)
    (h : SpreadResetEffect.step ndev cs = some cs') : Hin cs' := by
  unfold SpreadResetEffect.step at h
  split_ifs at h with h0
  rcases Option.map_eq_some'.1 h with ⟨r0, hhead, hout⟩
  subst hout
  have hr0 : 0 ≤ r0.H ∧ r0.H < 1 := by
    have hm : r0 ∈ generateSpreadColours ndev (1 / (cs.length : ℝ)) :=
      List.mem_of_mem_head? hhead
    unfold generateSpreadColours at hm
    rcases List.mem_map.1 hm with ⟨x, _, rfl⟩
    exact ⟨pymod_one_nonneg _, pymod_one_lt_one _⟩
  intro c hc
  rcases List.mem_cons.1 hc with rfl | hm
  · exact hr0
  · exact Hin_spreadChain _ _ _ c hm

theorem combinedStep_Hin
    (effects : List (List HSVColour → List HSVColour))
    (hes : ∀ e ∈ effects, ∀ cs, Hin cs → Hin (e cs)) :
    ∀ cs : List HSVColour, Hin cs → Hin (CombinedEffects.step effects cs) := by
  induction effects with
  | nil => exact fun cs hcs => hcs
  | cons e es ih =>
    intro cs hcs
    exact ih (fun e' he' => hes e' (by simp [he'])) (e cs)
      (hes e (by simp) cs hcs)

/-- C8: for every effect variant, a step call preserves the invariant that
every colour's `H` lies in `[0, 1)` — given, for `ChristmasEffect`, that the
configured palette hues lie in `[0, 1)`, and for the random effects that the
random source produces values in `[0, 1)` (as Python's `random.random`
does).  `CombinedEffects` preserves the invariant whenever each of its
sub-effects does. -/
theorem claim_C8 :
    (∀ (s : HSVCycleState) (cs : List HSVColour) (s' : HSVCycleState)
        (cs' : List HSVColour),
      HSVCycleEffect.step s cs = some (s', cs') → Hin cs → Hin cs') ∧
    (∀ (rng : ℕ → ℝ), (∀ n, 0 ≤ rng n ∧ rng n < 1) →
      ∀ (k : ℕ) (cs : List HSVColour), Hin (RandomEffect.step rng k cs).1) ∧
    (∀ (s : ChristmasState) (cs : List HSVColour) (s' : ChristmasState)
        (cs' : List HSVColour),
      (∀ x ∈ s.hues, 0 ≤ x ∧ x < 1) →
      ChristmasEffect.step s cs = some (s', cs') → Hin cs → Hin cs') ∧
    (∀ (rng : ℕ → ℝ) (k : ℕ) (cs : List HSVColour)
        (out : List HSVColour × ℕ),
      setrandomhues rng k cs = some out → Hin out.1) ∧
    (∀ (s : ChristmasRState) (rng : ℕ → ℝ) (k : ℕ) (cs : List HSVColour)
        (out : ChristmasRState × List HSVColour × ℕ),
      ChristmasEffectR.step s rng k cs = some out → Hin cs →
      Hin out.2.1) ∧
    (∀ (s : ChristmasRAState) (rng : ℕ → ℝ) (k : ℕ) (cs : List HSVColour)
        (out : ChristmasRAState × List HSVColour × ℕ),
      (∀ m, 0 ≤ rng m ∧ rng m < 1) →
      ChristmasEffectRA.step s rng k cs = some out → Hin cs →
      Hin out.2.1) ∧
    (∀ (ndev : ℕ) (cs cs' : List HSVColour),
      SpreadResetEffect.step ndev cs = some cs' → Hin cs') ∧
    (∀ (effects : List (List HSVColour → List HSVColour)),
      (∀ e ∈ effects, ∀ cs, Hin cs → Hin (e cs)) →
      ∀ cs : List HSVColour, Hin cs →
      Hin (CombinedEffects.step effects cs)) :=
  ⟨hsvStep_Hin, randomStep_Hin,
   fun s cs s' cs' hhue h hcs => christmasStep_Hin s cs s' cs' hhue h hcs,
   fun rng k cs out h => setrandomhues_Hin rng k cs out h,
   fun s rng k cs out h hcs => christmasRStep_Hin s rng k cs out h hcs,
   fun s rng k cs out hr h hcs => christmasRAStep_Hin s rng k cs out hr h hcs,
   spreadResetStep_Hin, combinedStep_Hin⟩

/-- C8 witness: the `SpreadResetEffect` clause evaluated on a concrete
1-colour list whose input hue even lies outside `[0, 1)`: the output hue
invariant holds regardless. -/
theorem claim_C8_witness : Hin [⟨0.6, 0.99, 0.7⟩] := by
  have hstep : SpreadResetEffect.step 1 [⟨2.5, 3, 4⟩] =
      some [⟨0.6, 0.99, 0.7⟩] := by
    unfold SpreadResetEffect.step
    rw [if_neg (by norm_num),
      show (1 / ((List.length [(⟨2.5, 3, 4⟩ : HSVColour)] : ℕ) : ℝ)) = 1
        from by norm_num,
      generateSpreadColours_head 1 (by norm_num) 1 (by norm_num),
      Option.map_some']
    simp only [List.tail_cons, spreadChain]
    rw [show pymod (0.6 + 1 * (0 : ℝ)) 1 = (0.6 : ℝ) from by
      rw [pymod_one]
      norm_num [Int.fract]]
  exact claim_C8.2.2.2.2.2.2.1 1 [⟨2.5, 3, 4⟩] [⟨0.6, 0.99, 0.7⟩] hstep
